import Mathlib

/-!
Verification of the `athete/ad-analysis` repository: shallow embedding of
`src/axo.py` (`make_1d_hist`, `fill_1d_hist`, `AXOHistFactory.process`),
`src/src/project-name/processors/AXOEfficiencyProcessor.py`
(`AXOEfficiencyProcessor.process`) and
`src/src/project-name/processors/utils.py` (`add_selection`).

Conventions of the embedding:
* dask/awkward columnar arrays over events become `List` of per-event records;
  elementwise masks become `List Bool` applied positionally (`maskFilter`);
* a Python run that can raise becomes `Except PyErr`, with the error kind
  recording which Python exception is raised;
* `hist` histograms become a record of their axes, storage and the multiset
  (here: list, in fill order) of fill calls, each fill remembering the
  category strings and the column of filled values (`none` models the `None`
  entries that `ak.pad_none` introduces);
* Python dicts keyed by strings become association lists with
  insert-or-update (`aset`) mirroring `d[k] = v`.
-/

namespace AdAnalysis

/-- Kinds of Python exceptions the embedded code can raise. -/
inductive PyErr where
  | typeError
  | keyError (key : String)
  | attributeError (attr : String)
  | nameError (name : String)
  | valueError
deriving DecidableEq

/-- A `hist` axis: either a string category axis (growable when `growth`)
or a `Regular` axis of `bins` uniform-width bins on `[lo, hi)`. -/
inductive Axis where
  | strCategory (categories : List String) (name label : String) (growth : Bool)
  | regular (bins : ℕ) (lo hi : ℚ) (name label : String)
deriving DecidableEq

/-- Histogram storage kind (`storage='weight'` vs the default `.Double()`). -/
inductive Storage where
  | weight
  | double
deriving DecidableEq

/-- One `.fill(...)` call recorded on a histogram: the trigger category, the
optional object category, the keyword name of the observable axis and the
column of filled values. -/
structure FillRec where
  trigger : String
  object : Option String
  obsName : String
  values : List (Option ℚ)
deriving DecidableEq

/-- A histogram: its axes, storage and recorded fills. -/
structure Hist where
  axes : List Axis
  storage : Storage
  fills : List FillRec
deriving DecidableEq

instance {ε α : Type} [DecidableEq ε] [DecidableEq α] : DecidableEq (Except ε α) :=
  fun x y =>
    match x, y with
    | .ok a, .ok b =>
        if h : a = b then isTrue (by rw [h]) else isFalse (by simp [h])
    | .error a, .error b =>
        if h : a = b then isTrue (by rw [h]) else isFalse (by simp [h])
    | .ok _, .error _ => isFalse (by simp)
    | .error _, .ok _ => isFalse (by simp)

/-- Positional boolean-mask selection of a columnar array, `arr[mask]`. -/
def maskFilter {α : Type} (l : List α) (m : List Bool) : List α :=
  ((l.zip m).filter fun p => p.2).map Prod.fst

/-- Elementwise conjunction of two boolean columns (`a * b` or `a & b`). -/
def zipAnd (a b : List Bool) : List Bool :=
  (a.zip b).map fun p => p.1 && p.2

/-- Elementwise disjunction of two boolean columns (`a | b`). -/
def zipOr (a b : List Bool) : List Bool :=
  (a.zip b).map fun p => p.1 || p.2

/-- Rational addition written through `mkRat` (equal to `+` by
`qadd_eq_add`; this form reduces in the kernel, so concrete runs can be
checked by `decide`). -/
def qadd (a b : ℚ) : ℚ := mkRat (a.num * b.den + b.num * a.den) (a.den * b.den)

/-- `ak.sum` over a flat column: the sum of a list of rationals. -/
def qsum (l : List ℚ) : ℚ := l.foldr qadd 0

/-- Association-list lookup, mirroring Python `d[k]` (first match wins). -/
def alookup {α : Type} : List (String × α) → String → Option α
  | [], _ => none
  | (k1, v1) :: rest, k => if k1 = k then some v1 else alookup rest k

/-- Association-list insert-or-update, mirroring Python `d[k] = v`:
updating keeps the key at its original position, a new key is appended. -/
def aset {α : Type} : List (String × α) → String → α → List (String × α)
  | [], k, v => [(k, v)]
  | (k1, v1) :: rest, k, v =>
      if k1 = k then (k, v) :: rest else (k1, v1) :: aset rest k v

/-- The keys of an association list, in insertion order. -/
def akeys {α : Type} (d : List (String × α)) : List String := d.map Prod.fst

namespace Axo

/-- A physics object of `src/axo.py` (jet, electron, muon, photon, L1 object):
the fields the processor reads. -/
structure Obj where
  pt : ℚ
  eta : ℚ
  phi : ℚ
  bx : ℤ
deriving DecidableEq

/-- One `L1EtSum` record: the fields the processor reads. -/
structure EtSum where
  pt : ℚ
  etSumType : ℤ
  bx : ℤ
deriving DecidableEq

/-- One collision event as read by `AXOHistFactory.process`: the per-event
object collections, the `ScoutingMET.pt` scalar, and the boolean trigger
decisions, addressed as `branch` (e.g. `"DST"`) and path within the branch
(e.g. `"PFScouting_AXONominal"`); trigger-branch lookups are modelled total. -/
structure Event where
  L1Jet : List Obj
  L1Mu : List Obj
  L1EG : List Obj
  L1EtSum : List EtSum
  ScoutingPFJet : List Obj
  ScoutingElectron : List Obj
  ScoutingMuonVtx : List Obj
  ScoutingPhoton : List Obj
  ScoutingMET : ℚ
  branch : String → String → Bool

/-- Per-object cut list and label, one entry of `AXOHistFactory.object_dict`. -/
structure ObjSpec where
  cuts : List (String × ℚ)
  label : String
deriving DecidableEq

/-- `AXOHistFactory.object_dict` as written in `__init__`. -/
def object_dict : List (String × ObjSpec) :=
  [ ("ScoutingPFJet", ⟨[("pt", 30)], "j"⟩),
    ("ScoutingElectron", ⟨[("pt", 10)], "e"⟩),
    ("ScoutingMuonVtx", ⟨[("pt", 3)], "\\mu"⟩),
    ("ScoutingPhoton", ⟨[("pt", 10)], "\\gamma"⟩),
    ("L1Jet", ⟨[("pt", mkRat 1 10)], "L1j"⟩),
    ("L1EG", ⟨[("pt", mkRat 1 10)], "L1e"⟩),
    ("L1Mu", ⟨[("pt", mkRat 1 10)], "L1\\mu"⟩) ]

/-- The `hists_to_process` dict: its `"1d_scalar"` and `"1d_object"` lists. -/
structure HistsCfg where
  scalar1d : List String
  object1d : List String
deriving DecidableEq

/-- `self.trigger_axis`: growable string category axis named `trigger`. -/
def trigger_axis : Axis := .strCategory [] "trigger" "Trigger" true

/-- `self.object_axis`: growable string category axis named `object`. -/
def object_axis : Axis := .strCategory [] "object" "Object" true

/-- `self.pt_axis`. -/
def pt_axis : Axis := .regular 500 0 5000 "pt" "$p_T$ [GeV]"

/-- `self.ht_axis`. -/
def ht_axis : Axis := .regular 70 0 2000 "ht" "$H_T$ [GeV]"

/-- `self.met_axis`. -/
def met_axis : Axis := .regular 250 0 2500 "met" "$p^\x7b\\rm miss\x7d_T$ [GeV]"

/-- `self.eta_axis`. -/
def eta_axis : Axis := .regular 150 (-5) 5 "eta" "$\\eta$"

/-- `self.phi_axis`. -/
def phi_axis : Axis := .regular 30 (-4) 4 "phi" "$\\phi$"

/-- `self.mult_axis`. -/
def mult_axis : Axis := .regular 200 0 201 "mult" "$N_\x7b\\rm obj\x7d$"

/-- The observable (Regular) axes `AXOHistFactory.__init__` creates. -/
def observableAxes : List Axis :=
  [pt_axis, ht_axis, met_axis, eta_axis, phi_axis, mult_axis]

/-- Whether an axis is a growable string-category axis. -/
def isGrowableStrCategory : Axis → Bool
  | .strCategory _ _ _ growth => growth
  | .regular _ _ _ _ _ => false

/-- Whether an axis is a fixed-width regular numeric axis. -/
def isRegularAxis : Axis → Bool
  | .strCategory _ _ _ _ => false
  | .regular _ _ _ _ _ => true

/-- Dict of histograms keyed by name, the value built by `process`. -/
abbrev HistDict := List (String × Hist)

/-- `make_1d_hist` of `src/axo.py`: builds a weight-storage histogram whose
axes are the trigger axis, the object axis when one is supplied, and the
observable axis, and stores it in `hist_dict` under `hist_name`. -/
def make_1d_hist (hist_dict : HistDict) (hist_name : String)
    (trigger_axis observable_axis : Axis) (object_axis : Option Axis := none) :
    HistDict :=
  match object_axis with
  | none =>
      aset hist_dict hist_name ⟨[trigger_axis, observable_axis], .weight, []⟩
  | some oa =>
      aset hist_dict hist_name ⟨[trigger_axis, oa, observable_axis], .weight, []⟩

/-- Python call arity check: calling a function that declares `required`
positional parameters and `opt` defaulted ones with `given` positional
arguments raises `TypeError` unless `required ≤ given ≤ required + opt`. -/
def pyCallArity (required opt given : ℕ) : Except PyErr Unit :=
  if given < required ∨ required + opt < given then .error .typeError else .ok ()

/-- The expression `make_1d_hist()` at line 122 of `src/axo.py`:
`make_1d_hist` declares 4 required positional parameters and 1 defaulted one
but is called with 0 arguments, so the call raises `TypeError` before the
outer argument list `(hist_dict, "total_l1pt", trigger_axis, pt_axis)` is
ever applied.  (Had the inner call returned, its dict result would itself be
called, which also raises `TypeError`: a dict is not callable.) -/
def make_1d_hist_zero_args : Except PyErr HistDict := do
  let _ ← pyCallArity 4 1 0
  .error .typeError

/-- `fill_1d_hist` of `src/axo.py`: looks up `hist_name` in `hist_dict`
(raising `KeyError` when absent, as `hist_dict[f"{hist_name}"]` does) and
records a fill with the given trigger category, values, observable keyword
and optional object category. -/
def fill_1d_hist (hist_dict : HistDict) (hist_name : String) (trigger : String)
    (observable : List (Option ℚ)) (observable_name : String)
    (object_name : Option String := none) : Except PyErr HistDict :=
  match alookup hist_dict hist_name with
  | none => .error (.keyError hist_name)
  | some h =>
      .ok (aset hist_dict hist_name
        { h with fills := h.fills ++ [⟨trigger, object_name, observable_name, observable⟩] })

/-- Split a character list at every separator, Python `str.split(sep)`
semantics (`"".split(sep) == [""]`, separators at the ends give empty parts). -/
def splitCharList (sep : Char) : List Char → List (List Char)
  | [] => [[]]
  | c :: rest =>
      let r := splitCharList sep rest
      if c = sep then [] :: r
      else
        match r with
        | [] => [[c]]
        | g :: gs => (c :: g) :: gs

/-- `trigger_path.split("_")`. -/
def splitU (s : String) : List String :=
  (splitCharList (Char.ofNat 95) s.toList).map List.asString

/-- `"_".join(parts)`. -/
def joinU : List String → String
  | [] => ""
  | [x] => x
  | x :: rest => x ++ "_" ++ joinU rest

/-- `trigger_path.split("_")[0]`. -/
def headComponent (path : String) : String := (splitU path).headD ""

/-- `"_".join(trigger_path.split("_")[1:])`. -/
def restComponent (path : String) : String := joinU ((splitU path).drop 1)

/-- `trigger_path.split("_")[-1]`. -/
def lastComponent (path : String) : String := (splitU path).getLastD ""

/-- Whether the event passes the trigger path:
`events[getattr(getattr(events, path.split("_")[0]), "_".join(...))]`. -/
def trigPass (path : String) (e : Event) : Bool :=
  e.branch (headComponent path) (restComponent path)

/-- Line 96 of `src/axo.py` per event: `dak.all(events.L1Jet.pt < 1000, axis=1)`. -/
def satJetCut (e : Event) : Bool := e.L1Jet.all fun j => decide (j.pt < 1000)

/-- The bunch-crossing-zero MET-type L1 sums of an event:
`events.L1EtSum.pt[(events.L1EtSum.etSumType==2) & (events.L1EtSum.bx==0)]`. -/
def metSums (e : Event) : List ℚ :=
  (e.L1EtSum.filter fun s => s.etSumType == 2 && s.bx == 0).map EtSum.pt

/-- Lines 96-97 of `src/axo.py`: the data-quality saturation cuts.  The
second line builds a flat mask from `dak.flatten`, which awkward only
accepts against `events` if its length matches the event count; otherwise
the indexing fails (modelled as `valueError`). -/
def satStage (events : List Event) : Except PyErr (List Event) :=
  let events := events.filter satJetCut
  let mask := events.flatMap fun e => (metSums e).map fun q => decide (q < 1040)
  if mask.length = events.length then .ok (maskFilter events mask)
  else .error .valueError

/-- Both saturation cuts as a per-event predicate (the meaning of lines
96-97 when every event carries exactly one bunch-crossing-zero MET sum). -/
def satPass (e : Event) : Bool :=
  satJetCut e && ((metSums e).all fun q => decide (q < 1040))

/-- Well-formedness of the event batch for line 97: every event surviving
the jet saturation cut has exactly one bunch-crossing-zero MET-type L1 sum,
so the flattened mask aligns with the event list. -/
def uniformEtSum (events : List Event) : Bool :=
  (events.filter satJetCut).all fun e => (metSums e).length == 1

/-- The events a given trigger path's fills draw from: the saturation cuts
of lines 96-97 followed by the trigger-path selection of lines 208-210. -/
def filteredEvents (events : List Event) (path : String) : List Event :=
  (events.filter satPass).filter (trigPass path)

/-- Values filled into `l1ht` (lines 216-223):
`dak.flatten(l1_ht.pt)` over the HT-type bunch-crossing-zero sums. -/
def l1htVals (evs : List Event) : List (Option ℚ) :=
  evs.flatMap fun e =>
    ((e.L1EtSum.filter fun s => s.etSumType == 1 && s.bx == 0).map
      fun s => some s.pt)

/-- Values filled into `l1met` (lines 225-232). -/
def l1metVals (evs : List Event) : List (Option ℚ) :=
  evs.flatMap fun e =>
    ((e.L1EtSum.filter fun s => s.etSumType == 2 && s.bx == 0).map
      fun s => some s.pt)

/-- Values filled into `scoutinght` (lines 257-265):
`dak.sum(events_trig.ScoutingPFJet.pt, axis=1)`. -/
def scoutinghtVals (evs : List Event) : List (Option ℚ) :=
  evs.map fun e => some (qsum (e.ScoutingPFJet.map Obj.pt))

/-- Values filled into `scoutingmet` (lines 266-274): `events_trig.ScoutingMET.pt`. -/
def scoutingmetVals (evs : List Event) : List (Option ℚ) :=
  evs.map fun e => some e.ScoutingMET

/-- Values filled into `total_scoutingmult` (lines 275-283). -/
def scoutingmultVals (evs : List Event) : List (Option ℚ) :=
  evs.map fun e =>
    some (((e.ScoutingPFJet.length + e.ScoutingElectron.length
      + e.ScoutingMuonVtx.length + e.ScoutingPhoton.length : ℕ) : ℚ))

/-- Values filled into `total_scoutingpt` (lines 284-295).  Line 285 is a
complete statement `scouting_total_pt = dak.sum(events_trig.ScoutingPFJet.pt,
axis=1)`; lines 286-288 (`+ dak.sum(events_trig.ScoutingElectron.pt, ...)`
etc.) are separate expression statements whose unary-plus results are
discarded, so only the ScoutingPFJet sum is filled. -/
def scoutingptVals (evs : List Event) : List (Option ℚ) :=
  evs.map fun e => some (qsum (e.ScoutingPFJet.map Obj.pt))

/-- Whether `pat` occurs as a contiguous sublist. -/
def containsSub (pat : List Char) : List Char → Bool
  | [] => pat.isEmpty
  | c :: rest => pat.isPrefixOf (c :: rest) || containsSub pat rest

/-- Substring containment, Python `sub in s`. -/
def strContains (s sub : String) : Bool := containsSub sub.toList s.toList

/-- `getattr(events_trig, obj)` for the object collections of `Event`;
any other attribute raises `AttributeError`. -/
def objFieldGetter (name : String) : Option (Event → List Obj) :=
  if name = "ScoutingPFJet" then some Event.ScoutingPFJet
  else if name = "ScoutingElectron" then some Event.ScoutingElectron
  else if name = "ScoutingMuonVtx" then some Event.ScoutingMuonVtx
  else if name = "ScoutingPhoton" then some Event.ScoutingPhoton
  else if name = "L1Jet" then some Event.L1Jet
  else if name = "L1EG" then some Event.L1EG
  else if name = "L1Mu" then some Event.L1Mu
  else none

/-- One step of the cut loop of lines 306-310:
`if var == 'pt': mask = (pt > cut)` then `if var == 'eta': mask = mask & ...`;
the accumulator is `none` while the Python name `mask` is still unbound, and
an `eta` cut before any `pt` cut raises `NameError`. -/
def cutStep (m : Option (Obj → Bool)) (vc : String × ℚ) :
    Except PyErr (Option (Obj → Bool)) :=
  let m := if vc.1 = "pt" then some (fun o => decide (o.pt > vc.2)) else m
  if vc.1 = "eta" then
    match m with
    | none => .error (.nameError "mask")
    | some f => .ok (some (fun o => f o && decide (|o.eta| < vc.2)))
  else .ok m

/-- The object mask built by the cut loop; `obj_branch[mask]` with `mask`
still unbound (empty or `pt`-less cut list) raises `NameError`. -/
def cutsMask (cuts : List (String × ℚ)) : Except PyErr (Obj → Bool) := do
  let m ← cuts.foldlM cutStep none
  match m with
  | none => .error (.nameError "mask")
  | some f => .ok f

/-- `cutsMask` with the error collapsed to `none` (used to state which
values a successful object fill contains). -/
def cutsMaskTotal (cuts : List (String × ℚ)) : Option (Obj → Bool) :=
  match cutsMask cuts with
  | .ok f => some f
  | .error _ => none

/-- The per-event object list after the `bx == 0` filter applied to L1
collections (line 303-304) and the cut mask (line 311). -/
def objsAfterCuts (objName : String) (g : Event → List Obj) (mf : Obj → Bool)
    (e : Event) : List Obj :=
  (if strContains objName "L1" then (g e).filter (fun o => o.bx == 0) else g e).filter mf

/-- `dak.num(obj_branch)` per event (fill of `n_obj`). -/
def nVals (objsOf : Event → List Obj) (evs : List Event) : List (Option ℚ) :=
  evs.map fun e => some (((objsOf e).length : ℚ))

/-- `dak.flatten(obj_branch.pt)` (fill of `pt_obj`). -/
def ptVals (objsOf : Event → List Obj) (evs : List Event) : List (Option ℚ) :=
  evs.flatMap fun e => (objsOf e).map fun o => some o.pt

/-- `dak.flatten(obj_branch.pt[:, 0:1])` (fill of `pt0_obj`). -/
def pt0Vals (objsOf : Event → List Obj) (evs : List Event) : List (Option ℚ) :=
  evs.flatMap fun e => ((objsOf e).take 1).map fun o => some o.pt

/-- `dak.flatten(obj_branch.pt[:, 1:2])` (fill of `pt1_obj`). -/
def pt1Vals (objsOf : Event → List Obj) (evs : List Event) : List (Option ℚ) :=
  evs.flatMap fun e => (((objsOf e).drop 1).take 1).map fun o => some o.pt

/-- `dak.flatten(obj_branch.eta)` (fill of `eta_obj`). -/
def etaVals (objsOf : Event → List Obj) (evs : List Event) : List (Option ℚ) :=
  evs.flatMap fun e => (objsOf e).map fun o => some o.eta

/-- `dak.flatten(obj_branch.phi)` (fill of `phi_obj`). -/
def phiVals (objsOf : Event → List Obj) (evs : List Event) : List (Option ℚ) :=
  evs.flatMap fun e => (objsOf e).map fun o => some o.phi

/-- A conditional fill, `if name in hists_to_process[...]: fill_1d_hist(...)`. -/
def condFill (c : Prop) [Decidable c] (d : HistDict) (hist_name trigger : String)
    (observable : List (Option ℚ)) (observable_name : String)
    (object_name : Option String) : Except PyErr HistDict :=
  if c then fill_1d_hist d hist_name trigger observable observable_name object_name
  else .ok d

/-- A conditional raise (used where the guarded block raises before filling). -/
def condThrow (c : Prop) [Decidable c] (e : PyErr) (d : HistDict) :
    Except PyErr HistDict :=
  if c then .error e else .ok d

/-- The per-object body of the loop over `object_dict` (lines 296-366):
`getattr`, `bx == 0` filter for L1 collections, the cut mask, and the six
gated object fills. -/
def fillObjOne (cfg : HistsCfg) (events_trig : List Event) (t : String)
    (p : String × ObjSpec) (d : HistDict) : Except PyErr HistDict :=
  match objFieldGetter p.1 with
  | none => .error (.attributeError p.1)
  | some g =>
    match cutsMask p.2.cuts with
    | .error e => .error e
    | .ok mf =>
      let objsOf := objsAfterCuts p.1 g mf
      condFill ("n" ∈ cfg.object1d) d "n_obj" t (nVals objsOf events_trig)
          "mult" (some p.1) >>= fun d =>
      condFill ("pt" ∈ cfg.object1d) d "pt_obj" t (ptVals objsOf events_trig)
          "pt" (some p.1) >>= fun d =>
      condFill ("pt0" ∈ cfg.object1d) d "pt0_obj" t (pt0Vals objsOf events_trig)
          "pt" (some p.1) >>= fun d =>
      condFill ("pt1" ∈ cfg.object1d) d "pt1_obj" t (pt1Vals objsOf events_trig)
          "pt" (some p.1) >>= fun d =>
      condFill ("eta" ∈ cfg.object1d) d "eta_obj" t (etaVals objsOf events_trig)
          "eta" (some p.1) >>= fun d =>
      condFill ("phi" ∈ cfg.object1d) d "phi_obj" t (phiVals objsOf events_trig)
          "phi" (some p.1)

/-- One iteration of the trigger loop (lines 205-366).  The `total_l1mult`
and `total_l1pt` blocks read `events.trig.L1Jet.bx` (lines 234-236 and
245-247); `events` has no attribute `trig` (the code means `events_trig`),
so those blocks raise `AttributeError` before their fill. -/
def fillTrigger (odict : List (String × ObjSpec)) (cfg : HistsCfg)
    (events : List Event) (d : HistDict) (path : String) :
    Except PyErr HistDict :=
  let events_trig := events.filter (trigPass path)
  let t := lastComponent path
  condFill ("l1ht" ∈ cfg.scalar1d) d "l1ht" t (l1htVals events_trig)
      "ht" none >>= fun d =>
  condFill ("l1met" ∈ cfg.scalar1d) d "l1met" t (l1metVals events_trig)
      "met" none >>= fun d =>
  condThrow ("total_l1mult" ∈ cfg.scalar1d) (.attributeError "trig") d >>= fun d =>
  condThrow ("total_l1pt" ∈ cfg.scalar1d) (.attributeError "trig") d >>= fun d =>
  condFill ("scoutinght" ∈ cfg.scalar1d) d "scoutinght" t
      (scoutinghtVals events_trig) "ht" none >>= fun d =>
  condFill ("scoutingmet" ∈ cfg.scalar1d) d "scoutingmet" t
      (scoutingmetVals events_trig) "met" none >>= fun d =>
  condFill ("total_scoutingmult" ∈ cfg.scalar1d) d "total_scoutingmult" t
      (scoutingmultVals events_trig) "mult" none >>= fun d =>
  condFill ("total_scoutingpt" ∈ cfg.scalar1d) d "total_scoutingpt" t
      (scoutingptVals events_trig) "pt" none >>= fun d =>
  odict.foldlM (fun d p => fillObjOne cfg events_trig t p d) d

/-- One `if <gate> in self.hists_to_process["1d_scalar"]: make_1d_hist(...)`
block of the creation phase. -/
def creStepScalar (cfg : HistsCfg) (gate name : String) (ax : Axis)
    (d : HistDict) : HistDict :=
  if gate ∈ cfg.scalar1d then make_1d_hist d name trigger_axis ax else d

/-- One `if <gate> in self.hists_to_process["1d_object"]: make_1d_hist(...,
object_axis=...)` block of the creation phase. -/
def creStepObj (cfg : HistsCfg) (gate name : String) (ax : Axis)
    (d : HistDict) : HistDict :=
  if gate ∈ cfg.object1d then
    make_1d_hist d name trigger_axis ax (some object_axis)
  else d

/-- The histogram-creation phase of `AXOHistFactory.process` (lines
100-203), building `hist_dict` one gated `make_1d_hist` call at a time, in
source order; the `total_l1pt` branch executes `make_1d_hist()(...)`, whose
inner zero-argument call raises `TypeError`. -/
def createHists (cfg : HistsCfg) : Except PyErr HistDict := do
  let d := creStepScalar cfg "total_l1mult" "total_l1mult" mult_axis
    (creStepScalar cfg "l1met" "l1met" met_axis
      (creStepScalar cfg "l1ht" "l1ht" ht_axis []))
  let d ← if "total_l1pt" ∈ cfg.scalar1d then make_1d_hist_zero_args
      else Except.ok d
  Except.ok
    (creStepObj cfg "phi" "phi_obj" phi_axis
      (creStepObj cfg "eta" "eta_obj" eta_axis
        (creStepObj cfg "pt1" "pt1_obj" pt_axis
          (creStepObj cfg "pt0" "pt0_obj" pt_axis
            (creStepObj cfg "pt" "pt_obj" pt_axis
              (creStepObj cfg "n" "n_obj" mult_axis
                (creStepScalar cfg "total_scoutingpt" "total_scoutingpt" pt_axis
                  (creStepScalar cfg "total_scoutingmult" "total_scoutingmult" mult_axis
                    (creStepScalar cfg "scoutingmet" "scoutingmet" met_axis
                      (creStepScalar cfg "scoutinght" "scoutinght" ht_axis d))))))))))

/-- `AXOHistFactory.process`: saturation cuts, histogram creation, then the
per-trigger fill loop.  `odict` is `self.object_dict` (kept as a parameter
so that runs with modified `label` entries can be compared). -/
def process (odict : List (String × ObjSpec)) (cfg : HistsCfg)
    (triggers : List String) (events : List Event) : Except PyErr HistDict := do
  let events ← satStage events
  let d ← createHists cfg
  triggers.foldlM (fun d path => fillTrigger odict cfg events d path) d

/-- The histogram names filled without an object category, paired with the
`hists_to_process["1d_scalar"]` entry that gates them. -/
def scalarFillNames : List String :=
  ["l1ht", "l1met", "scoutinght", "scoutingmet", "total_scoutingmult",
   "total_scoutingpt"]

/-- The histogram names filled with an object category. -/
def objFillNames : List String :=
  ["n_obj", "pt_obj", "pt0_obj", "pt1_obj", "eta_obj", "phi_obj"]

/-- The column a scalar fill of the given histogram name reads from the
trigger-selected events (dispatch over the fill sites of lines 213-295). -/
def scalarFillValues (name : String) (evs : List Event) : List (Option ℚ) :=
  if name = "l1ht" then l1htVals evs
  else if name = "l1met" then l1metVals evs
  else if name = "scoutinght" then scoutinghtVals evs
  else if name = "scoutingmet" then scoutingmetVals evs
  else if name = "total_scoutingmult" then scoutingmultVals evs
  else if name = "total_scoutingpt" then scoutingptVals evs
  else []

/-- The column an object fill of the given histogram name reads from the
trigger-selected events, for one `object_dict` entry `p` (dispatch over the
fill sites of lines 313-366). -/
def objWhichVals (p : String × ObjSpec) (name : String) (evs : List Event) :
    List (Option ℚ) :=
  match objFieldGetter p.1, cutsMaskTotal p.2.cuts with
  | some g, some mf =>
      let objsOf := objsAfterCuts p.1 g mf
      if name = "n_obj" then nVals objsOf evs
      else if name = "pt_obj" then ptVals objsOf evs
      else if name = "pt0_obj" then pt0Vals objsOf evs
      else if name = "pt1_obj" then pt1Vals objsOf evs
      else if name = "eta_obj" then etaVals objsOf evs
      else if name = "phi_obj" then phiVals objsOf evs
      else []
  | _, _ => []

/-- What one iteration of the trigger loop writes: every fill record it
appends carries the trigger category `path.split("_")[-1]` and a column
computed from `evs` (the events passing this path) at one of the fill
sites: either a scalar site or an object site for an `object_dict` entry. -/
def PathRec (odict : List (String × ObjSpec)) (evs : List Event) (path : String)
    (name : String) (r : FillRec) : Prop :=
  r.trigger = lastComponent path ∧
  ((r.object = none ∧ name ∈ scalarFillNames ∧
      r.values = scalarFillValues name evs) ∨
   (∃ p ∈ odict, r.object = some p.1 ∧ name ∈ objFillNames ∧
      r.values = objWhichVals p name evs))

/-- Property of one statement of the fill loop acting on the histogram
dict: it never raises `KeyError`, and on success it preserves the key set
and only appends records satisfying `P`. -/
def StepOk (d : HistDict) (s : Except PyErr HistDict)
    (P : String → FillRec → Prop) : Prop :=
  (∀ k, s ≠ .error (.keyError k)) ∧
  ∀ d2, s = .ok d2 → akeys d2 = akeys d ∧
    ∀ m h2, alookup d2 m = some h2 → ∀ r ∈ h2.fills,
      (∃ h1, alookup d m = some h1 ∧ r ∈ h1.fills) ∨ P m r

/-- Invariant carried through the fill loop: every histogram name a gated
fill can target was created during the creation phase. -/
structure KeysInv (cfg : HistsCfg) (d : HistDict) : Prop where
  hl1ht : "l1ht" ∈ cfg.scalar1d → "l1ht" ∈ akeys d
  hl1met : "l1met" ∈ cfg.scalar1d → "l1met" ∈ akeys d
  hsht : "scoutinght" ∈ cfg.scalar1d → "scoutinght" ∈ akeys d
  hsmet : "scoutingmet" ∈ cfg.scalar1d → "scoutingmet" ∈ akeys d
  hsmult : "total_scoutingmult" ∈ cfg.scalar1d → "total_scoutingmult" ∈ akeys d
  hspt : "total_scoutingpt" ∈ cfg.scalar1d → "total_scoutingpt" ∈ akeys d
  hn : "n" ∈ cfg.object1d → "n_obj" ∈ akeys d
  hpt : "pt" ∈ cfg.object1d → "pt_obj" ∈ akeys d
  hpt0 : "pt0" ∈ cfg.object1d → "pt0_obj" ∈ akeys d
  hpt1 : "pt1" ∈ cfg.object1d → "pt1_obj" ∈ akeys d
  heta : "eta" ∈ cfg.object1d → "eta_obj" ∈ akeys d
  hphi : "phi" ∈ cfg.object1d → "phi_obj" ∈ akeys d

end Axo

namespace PUtil

/-- `PackedSelection.all(*names)` over the stored masks: the elementwise
conjunction of all added selections (all masks have the event count as
their common length). -/
def selAll : List (List Bool) → List Bool
  | [] => []
  | [m] => m
  | m :: ms => zipAnd m (selAll ms)

/-- `ak.sum` of a boolean column: the number of `true` entries. -/
def countTrue (m : List Bool) : ℕ := m.count true

/-- `add_selection` of `src/src/project-name/processors/utils.py`: adds the
named mask to the `PackedSelection` and records
`ak.sum(selection.all(*selection.names))` in the cutflow dict. -/
def add_selection (name : String) (sel : List Bool)
    (selection : List (String × List Bool)) (cutflow : List (String × ℕ)) :
    List (String × List Bool) × List (String × ℕ) :=
  let selection2 := selection ++ [(name, sel)]
  (selection2, aset cutflow name (countTrue (selAll (selection2.map Prod.snd))))

/-- The number of events (positions among `n`) passing every mask of the
given list: the specification-side count for a cutflow entry. -/
def passCount (n : ℕ) (masks : List (List Bool)) : ℕ :=
  (List.range n).countP fun j => masks.all fun m => m.getD j false

/-- A sequence of `add_selection` calls starting from an empty
`PackedSelection` and an empty cutflow dictionary, as in
`AXOEfficiencyProcessor.process` lines 52-65. -/
def runSelections (steps : List (String × List Bool)) :
    List (String × List Bool) × List (String × ℕ) :=
  steps.foldl (fun st p => add_selection p.1 p.2 st.1 st.2) ([], [])

end PUtil

namespace EffP

/-- A scouting jet as read by `AXOEfficiencyProcessor.process`. -/
structure Jet where
  pt : ℚ
  eta : ℚ
deriving DecidableEq

/-- One event: its scouting jets, `ScoutingMET.pt`, and the per-seed L1
decisions `events.L1.<seed>` (modelled total). -/
structure Event where
  ScoutingPFJet : List Jet
  ScoutingMET : ℚ
  L1 : String → Bool

/-- An event batch together with `events.L1.fields`, the seed names the L1
record actually carries (uniform across the batch). -/
structure Events where
  l1fields : List String
  evts : List Event

/-- One recorded `.fill(...)` on an efficiency histogram: the category
string passed for the growable axis (`trigger=` or `rank=`, `none` for the
axis-less `*_all` histograms) and the filled column. -/
structure EffFillRec where
  category : Option String
  values : List (Option ℚ)
deriving DecidableEq

/-- An efficiency histogram, identified with its recorded fills. -/
structure EffHist where
  fills : List EffFillRec
deriving DecidableEq

/-- `.fill(...)` on an efficiency histogram. -/
def effFill (h : EffHist) (category : Option String) (values : List (Option ℚ)) :
    EffHist :=
  ⟨h.fills ++ [⟨category, values⟩]⟩

/-- `jet_selection = {"pt": 30, "eta": 2.3}` applied per jet:
`(jets.pt > 30) * (np.abs(jets.eta) < 2.3)`. -/
def jetPass (j : Jet) : Bool := decide (j.pt > 30) && decide (|j.eta| < mkRat 23 10)

/-- `jets = ak.pad_none(jets[jet_selector], 1, axis=1)` per event: the jets
passing the selection, padded with `None` so at least one entry remains. -/
def paddedJets (e : Event) : List (Option Jet) :=
  match e.ScoutingPFJet.filter jetPass with
  | [] => [none]
  | js => js.map some

/-- `jet_selector = ak.any(jet_selector, axis=1)` per event. -/
def jetAny (e : Event) : Bool := e.ScoutingPFJet.any jetPass

/-- `ak.sum(jets.pt, axis=1)` for one event's padded jets (`None` adds 0). -/
def htOf (e : Event) : ℚ := qsum ((paddedJets e).filterMap fun j => j.map Jet.pt)

/-- `ak.sum(jets.pt[mask], axis=1)` as a filled column. -/
def htValsM (m : List Bool) (evts : List Event) : List (Option ℚ) :=
  (maskFilter evts m).map fun e => some (htOf e)

/-- `met.pt[mask]` as a filled column. -/
def metValsM (m : List Bool) (evts : List Event) : List (Option ℚ) :=
  (maskFilter evts m).map fun e => some e.ScoutingMET

/-- `ak.flatten(jets.pt[mask], axis=1)` as a filled column (`None` padding
entries survive the flatten). -/
def jetptValsM (m : List Bool) (evts : List Event) : List (Option ℚ) :=
  (maskFilter evts m).flatMap fun e => (paddedJets e).map fun j => j.map Jet.pt

/-- Ordering used to model `ak.argsort(jets.pt, ascending=False)`: higher
`pt` first, `None` entries last. -/
def jetGe (a b : Option Jet) : Bool :=
  match a, b with
  | some x, some y => decide (x.pt ≥ y.pt)
  | some _, none => true
  | none, some _ => false
  | none, none => true

/-- Insertion step for the descending jet sort. -/
def insertJet (x : Option Jet) : List (Option Jet) → List (Option Jet)
  | [] => [x]
  | y :: rest => if jetGe y x then y :: insertJet x rest else x :: y :: rest

/-- Descending-`pt` sort of a padded jet list. -/
def sortJetsDesc : List (Option Jet) → List (Option Jet)
  | [] => []
  | x :: rest => insertJet x (sortJetsDesc rest)

/-- The value returned by `AXOEfficiencyProcessor.process`: the `hists`
dict flattened into named fields (`hists["ht"]["den"]` becomes `ht_den`,
and so on).  `jetpt_all` is set to `None` at creation and never
reassigned, hence `Option`. -/
structure EffResult where
  ht_den : EffHist
  ht_num : EffHist
  met_den : EffHist
  met_num : EffHist
  jetpt_den : EffHist
  jetpt_num : EffHist
  ht_all : EffHist
  pt_all : EffHist
  met_all : EffHist
  jetpt_all : Option EffHist
  jetpt_topN : List (String × EffHist)
  cutflow : List (String × ℕ)
deriving DecidableEq

/-- `events.L1.AXO_Nominal | events.L1.HTT360er` per event. -/
def axoOrHtt (e : Event) : Bool := e.L1 "AXO_Nominal" || e.L1 "HTT360er"

/-- `events.L1.AXO_Nominal | events.L1.ETMHF70` per event. -/
def axoOrEtm (e : Event) : Bool := e.L1 "AXO_Nominal" || e.L1 "ETMHF70"

/-- The body of the loop over `L1s` (lines 139-160): raise `KeyError` when
the seed is not among `events.L1.fields`, otherwise fill the three shared
numerator histograms under the seed's trigger category. -/
def numStep (evts : List Event) (select zb : List Bool) (l1fields : List String)
    (hs : EffHist × EffHist × EffHist) (seed : String) :
    Except PyErr (EffHist × EffHist × EffHist) :=
  if seed ∈ l1fields then
    let num_selections := zipAnd (zipAnd select zb) (evts.map fun e => e.L1 seed)
    .ok (effFill hs.1 (some seed) (htValsM num_selections evts),
         effFill hs.2.1 (some seed) (metValsM num_selections evts),
         effFill hs.2.2 (some seed) (jetptValsM num_selections evts))
  else .error (.keyError seed)

/-- `AXOEfficiencyProcessor.process`.  `L1s` is the seed list imported from
`processors/common.py`, a module not present under `src/`, so it is kept as
a parameter.  Histogram variables are threaded explicitly: `h.copy().fill`
leaves the variable unchanged (the `den` fills), `h.fill(...)` rebinds it
(the shared `num` fills). -/
def process (L1s : List String) (ev : Events) : Except PyErr EffResult := do
  let events := ev.evts
  let cutflow := aset ([] : List (String × ℕ)) "begin" events.length
  -- jet selection (lines 52-58)
  let (selection, cutflow) :=
    PUtil.add_selection "jet" (events.map jetAny) [] cutflow
  -- select = selection.all(*selection.names), with only "jet" added so far
  let select := PUtil.selAll (selection.map Prod.snd)
  let (selection, cutflow) :=
    PUtil.add_selection "axo_and_htt360" (events.map axoOrHtt) selection cutflow
  let (selection, cutflow) :=
    PUtil.add_selection "axo_and_etmhf70" (events.map axoOrEtm) selection cutflow
  let _ := selection
  -- untriggered histograms (lines 76-99)
  let ht_all := effFill ⟨[]⟩ none (htValsM select events)
  let pt_all := effFill ⟨[]⟩ none (jetptValsM select events)
  let met_all := effFill ⟨[]⟩ none (metValsM select events)
  -- denominators: fresh copies of the base histograms (lines 101-135)
  let zb := events.map fun e => e.L1 "ZeroBias"
  let den_selections := zipAnd select zb
  let h_ht : EffHist := ⟨[]⟩
  let h_met : EffHist := ⟨[]⟩
  let h_pt : EffHist := ⟨[]⟩
  let ht_den := effFill h_ht (some "ZeroBias") (htValsM den_selections events)
  let met_den := effFill h_met (some "ZeroBias") (metValsM den_selections events)
  let jetpt_den := effFill h_pt (some "ZeroBias") (jetptValsM den_selections events)
  -- numerators: every seed fills the same three histogram objects
  let hs ← L1s.foldlM (numStep events select zb ev.l1fields) (h_ht, h_met, h_pt)
  let num_selections := zipAnd (zipAnd select zb) (events.map axoOrHtt)
  let ht_num := effFill hs.1 (some "AXO_Nominal_HTT360er") (htValsM num_selections events)
  let met_num := effFill hs.2.1 (some "AXO_Nominal_HTT360er") (metValsM num_selections events)
  let jetpt_num := effFill hs.2.2 (some "AXO_Nominal_HTT360er") (jetptValsM num_selections events)
  let num_selections2 := zipAnd (zipAnd select zb) (events.map axoOrEtm)
  let met_num := effFill met_num (some "AXO_Nominal_ETMHF70") (metValsM num_selections2 events)
  -- top-N leading jets for the quad-jet seed (lines 184-206)
  let quad := events.map fun e => e.L1 "HTT320er_QuadJet_80_60_er2p1_45_40_er2p3"
  let selections := zipAnd (zipAnd select zb) quad
  let sorted_jets := (maskFilter events selections).map fun e => sortJetsDesc (paddedJets e)
  let jetpt_topN := (List.range 4).map fun i =>
    let kept := sorted_jets.filter fun js => decide (i < js.length)
    ("jet" ++ toString (i + 1),
      effFill ⟨[]⟩ (some ("jet" ++ toString (i + 1)))
        (kept.flatMap fun js => ((js.drop i).take 1).map fun j => j.map Jet.pt))
  .ok { ht_den := ht_den, ht_num := ht_num, met_den := met_den,
        met_num := met_num, jetpt_den := jetpt_den, jetpt_num := jetpt_num,
        ht_all := ht_all, pt_all := pt_all, met_all := met_all,
        jetpt_all := none, jetpt_topN := jetpt_topN, cutflow := cutflow }

/-- The bin index test for the `Reg(100, 0, 2000)` observable axes shared
by the `ht`, `met` and `jetpt` efficiency histograms: value `v` falls in
bin `b` (bin width 20, `None` and overflow values land in no bin). -/
def inBin (b : ℕ) (v : Option ℚ) : Bool :=
  match v with
  | none => false
  | some q => decide (b < 100) && decide ((b : ℚ) * 20 ≤ q) && decide (q < ((b : ℚ) + 1) * 20)

/-- The count accumulated in category `t`, observable bin `b` of an
efficiency histogram (each fill enters with weight 1). -/
def binCount (h : EffHist) (t : String) (b : ℕ) : ℕ :=
  ((h.fills.filter fun r => r.category == some t).map fun r =>
    r.values.countP (inBin b)).sum

/-- The jet-selection-and-zero-bias predicate (`select * zero_bias_triggered`)
as a per-event test. -/
def denPass (e : Event) : Bool := jetAny e && e.L1 "ZeroBias"

/-- `ak.sum(jets.pt[...], axis=1)` over the events passing `p`. -/
def htValsP (p : Event → Bool) (evts : List Event) : List (Option ℚ) :=
  (evts.filter p).map fun e => some (htOf e)

/-- `met.pt[...]` over the events passing `p`. -/
def metValsP (p : Event → Bool) (evts : List Event) : List (Option ℚ) :=
  (evts.filter p).map fun e => some e.ScoutingMET

/-- `ak.flatten(jets.pt[...], axis=1)` over the events passing `p`. -/
def jetptValsP (p : Event → Bool) (evts : List Event) : List (Option ℚ) :=
  (evts.filter p).flatMap fun e => (paddedJets e).map fun j => j.map Jet.pt

/-- A concrete two-event batch used to instantiate the efficiency theorems:
the first event has a selected jet and fires ZeroBias and AXO_Nominal, the
second has no selected jet and fires only ZeroBias. -/
def evWitEff : Events :=
  ⟨["ZeroBias", "AXO_Nominal", "HTT360er", "ETMHF70"],
   [⟨[⟨40, 1⟩], 50, fun s => List.contains ["ZeroBias", "AXO_Nominal"] s⟩,
    ⟨[⟨10, 0⟩], 20, fun s => List.contains ["ZeroBias"] s⟩]⟩

end EffP

namespace Axo

/-- Concrete event used by witnesses: one bunch-crossing-zero MET-type L1
sum (100 GeV), no L1 jets, one scouting jet of 40 GeV and one scouting
electron of 10 GeV, MET 50 GeV, every trigger branch firing. -/
def eWit : Event :=
  { L1Jet := [], L1Mu := [], L1EG := [], L1EtSum := [⟨100, 2, 0⟩],
    ScoutingPFJet := [⟨40, 1, 0, 0⟩], ScoutingElectron := [⟨10, 1, 0, 0⟩],
    ScoutingMuonVtx := [], ScoutingPhoton := [], ScoutingMET := 50,
    branch := fun _ _ => true }

/-- The dict returned on `eWit` when only `scoutingmet` is requested. -/
def dC6 : HistDict :=
  [("scoutingmet", ⟨[trigger_axis, met_axis], .weight,
    [⟨"Foo", none, "met", [some 50]⟩]⟩)]

/-- `object_dict` with every `label` entry replaced. -/
def odAltLabels : List (String × ObjSpec) :=
  [ ("ScoutingPFJet", ⟨[("pt", 30)], "jet"⟩),
    ("ScoutingElectron", ⟨[("pt", 10)], "ele"⟩),
    ("ScoutingMuonVtx", ⟨[("pt", 3)], "mu"⟩),
    ("ScoutingPhoton", ⟨[("pt", 10)], "gamma"⟩),
    ("L1Jet", ⟨[("pt", mkRat 1 10)], "l1jet"⟩),
    ("L1EG", ⟨[("pt", mkRat 1 10)], "l1eg"⟩),
    ("L1Mu", ⟨[("pt", mkRat 1 10)], "l1mu"⟩) ]

/-- The `total_scoutingpt` histogram returned on `eWit`: the filled value
is 40 (the jet sum), not 50 (jets plus the 10 GeV electron). -/
def hC8 : Hist :=
  ⟨[trigger_axis, pt_axis], .weight, [⟨"AXONominal", none, "pt", [some 40]⟩]⟩

end Axo

@[simp] theorem error_bind {ε α β : Type} (e : ε) (f : α → Except ε β) :
    (Except.error e : Except ε α) >>= f = .error e := rfl

@[simp] theorem ok_bind {ε α β : Type} (a : α) (f : α → Except ε β) :
    (Except.ok a : Except ε α) >>= f = f a := rfl

theorem qadd_eq_add (a b : ℚ) : qadd a b = a + b := by
  have hd : a.den * b.den ≠ 0 := Nat.mul_ne_zero a.den_nz b.den_nz
  rw [qadd, Rat.add_def]
  unfold mkRat
  rw [dif_neg hd]

theorem qsum_eq_sum (l : List ℚ) : qsum l = l.sum := by
  induction l with
  | nil => rfl
  | cons x rest ih =>
      rw [show qsum (x :: rest) = qadd x (qsum rest) from rfl, qadd_eq_add, ih,
        List.sum_cons]

theorem alookup_aset_self {α : Type} (d : List (String × α)) (k : String) (v : α) :
    alookup (aset d k v) k = some v := by
  induction d with
  | nil => simp [aset, alookup]
  | cons p rest ih =>
    by_cases h : p.1 = k <;> simp [aset, alookup, h, ih]

theorem alookup_aset_ne {α : Type} (d : List (String × α)) (k k2 : String) (v : α)
    (h : k2 ≠ k) : alookup (aset d k v) k2 = alookup d k2 := by
  have hne : k ≠ k2 := Ne.symm h
  induction d with
  | nil => simp [aset, alookup, hne]
  | cons p rest ih =>
    by_cases h1 : p.1 = k
    · subst h1
      simp [aset, alookup, hne]
    · simp only [aset, h1, if_false, alookup]
      by_cases h2 : p.1 = k2 <;> simp [h2, ih]

theorem alookup_aset {α : Type} (d : List (String × α)) (k k2 : String) (v : α) :
    alookup (aset d k v) k2 = if k2 = k then some v else alookup d k2 := by
  by_cases h : k2 = k
  · subst h; simp [alookup_aset_self]
  · simp [h, alookup_aset_ne _ _ _ _ h]

theorem mem_akeys_aset {α : Type} (d : List (String × α)) (k k2 : String) (v : α) :
    k2 ∈ akeys (aset d k v) ↔ k2 ∈ akeys d ∨ k2 = k := by
  induction d with
  | nil => simp [aset, akeys, eq_comm]
  | cons p rest ih =>
    by_cases h : p.1 = k
    · subst h
      simp [aset, akeys]
      tauto
    · simp only [aset, h, if_false, akeys, List.map_cons, List.mem_cons]
      simp only [akeys] at ih
      rw [ih]
      tauto

theorem akeys_aset_of_mem {α : Type} (d : List (String × α)) (k : String) (v : α)
    (h : k ∈ akeys d) : akeys (aset d k v) = akeys d := by
  induction d with
  | nil => simp [akeys] at h
  | cons p rest ih =>
    by_cases h1 : p.1 = k
    · simp [aset, h1, akeys]
    · simp only [akeys, List.map_cons, List.mem_cons] at h
      rcases h with h | h
      · exact absurd h.symm h1
      · simp only [aset, h1, if_false, akeys, List.map_cons, List.cons.injEq, true_and]
        exact ih h

theorem alookup_isSome_iff_mem_akeys {α : Type} (d : List (String × α)) (k : String) :
    (alookup d k).isSome ↔ k ∈ akeys d := by
  induction d with
  | nil => simp [alookup, akeys]
  | cons p rest ih =>
    by_cases h : p.1 = k <;> simp [alookup, akeys, h, ih]
    exact fun h2 => (h h2.symm).elim

namespace Axo

theorem fill_1d_hist_error {d : HistDict} {n t : String} {v : List (Option ℚ)}
    {obsN : String} {ob : Option String} {e : PyErr}
    (h : fill_1d_hist d n t v obsN ob = .error e) : e = .keyError n := by
  unfold fill_1d_hist at h
  cases halo : alookup d n with
  | none => rw [halo] at h; exact ((Except.error.injEq _ _).mp h).symm
  | some h1 => rw [halo] at h; cases h

theorem fill_1d_hist_ok_keys {d d2 : HistDict} {n t : String}
    {v : List (Option ℚ)} {obsN : String} {ob : Option String}
    (h : fill_1d_hist d n t v obsN ob = .ok d2) : akeys d2 = akeys d := by
  unfold fill_1d_hist at h
  cases halo : alookup d n with
  | none => rw [halo] at h; cases h
  | some h1 =>
      rw [halo] at h
      have hd2 := (Except.ok.injEq _ _).mp h
      subst hd2
      exact akeys_aset_of_mem _ _ _
        ((alookup_isSome_iff_mem_akeys d n).mp (by rw [halo]; rfl))

theorem fill_1d_hist_ok_of_mem {d : HistDict} {n : String} (t : String)
    (v : List (Option ℚ)) (obsN : String) (ob : Option String)
    (hm : n ∈ akeys d) : ∃ d2, fill_1d_hist d n t v obsN ob = .ok d2 := by
  have := (alookup_isSome_iff_mem_akeys d n).mpr hm
  cases halo : alookup d n with
  | none => rw [halo] at this; cases this
  | some h1 => exact ⟨_, by unfold fill_1d_hist; rw [halo]⟩

theorem fill_1d_hist_records {d d2 : HistDict} {n t : String}
    {v : List (Option ℚ)} {obsN : String} {ob : Option String}
    (h : fill_1d_hist d n t v obsN ob = .ok d2) :
    ∀ m h2, alookup d2 m = some h2 → ∀ r ∈ h2.fills,
      (∃ h1, alookup d m = some h1 ∧ r ∈ h1.fills) ∨
        (m = n ∧ r = ⟨t, ob, obsN, v⟩) := by
  unfold fill_1d_hist at h
  cases halo : alookup d n with
  | none => rw [halo] at h; cases h
  | some h1 =>
      rw [halo] at h
      have hd2 := (Except.ok.injEq _ _).mp h
      subst hd2
      intro m h2 hm r hr
      rw [alookup_aset] at hm
      by_cases hmn : m = n
      · subst hmn
        rw [if_pos rfl] at hm
        have hh2 := (Option.some.injEq _ _).mp hm
        subst hh2
        simp only [List.mem_append, List.mem_singleton] at hr
        rcases hr with hr | hr
        · exact Or.inl ⟨h1, halo, hr⟩
        · exact Or.inr ⟨rfl, hr⟩
      · rw [if_neg hmn] at hm
        exact Or.inl ⟨h2, hm, hr⟩

theorem stepOk_pure (d : HistDict) (P : String → FillRec → Prop) :
    StepOk d (.ok d) P := by
  constructor
  · intro k h
    cases h
  · intro d2 h
    have := (Except.ok.injEq _ _).mp h
    subst this
    exact ⟨rfl, fun m h2 hm r hr => Or.inl ⟨h2, hm, hr⟩⟩

theorem stepOk_error {e : PyErr} (d : HistDict) (P : String → FillRec → Prop)
    (he : ∀ k, e ≠ .keyError k) : StepOk d (.error e) P := by
  constructor
  · intro k h
    exact he k ((Except.error.injEq _ _).mp h)
  · intro d2 h
    cases h

theorem stepOk_mono {d : HistDict} {s : Except PyErr HistDict}
    {P Q : String → FillRec → Prop} (hpq : ∀ n r, P n r → Q n r)
    (h : StepOk d s P) : StepOk d s Q := by
  refine ⟨h.1, fun d2 hok => ?_⟩
  obtain ⟨hk, hr⟩ := h.2 d2 hok
  exact ⟨hk, fun m h2 hm r hrin =>
    (hr m h2 hm r hrin).imp id (hpq m r)⟩

theorem stepOk_condFill {d : HistDict} {c : Prop} [Decidable c] {n t : String}
    {v : List (Option ℚ)} {obsN : String} {ob : Option String}
    {P : String → FillRec → Prop} (hm : c → n ∈ akeys d)
    (hP : P n ⟨t, ob, obsN, v⟩) :
    StepOk d (condFill c d n t v obsN ob) P := by
  unfold condFill
  by_cases hc : c
  · rw [if_pos hc]
    obtain ⟨d2, hd2⟩ := fill_1d_hist_ok_of_mem t v obsN ob (hm hc)
    constructor
    · intro k h
      rw [hd2] at h; cases h
    · intro d3 h
      rw [hd2] at h
      have := (Except.ok.injEq _ _).mp h
      subst this
      refine ⟨fill_1d_hist_ok_keys hd2, fun m h2 hmm r hr => ?_⟩
      rcases fill_1d_hist_records hd2 m h2 hmm r hr with h1 | ⟨hmn, hre⟩
      · exact Or.inl h1
      · subst hmn; subst hre; exact Or.inr hP
  · rw [if_neg hc]
    exact stepOk_pure d P

theorem stepOk_condThrow {d : HistDict} {c : Prop} [Decidable c] {e : PyErr}
    {P : String → FillRec → Prop} (he : ∀ k, e ≠ .keyError k) :
    StepOk d (condThrow c e d) P := by
  unfold condThrow
  by_cases hc : c
  · rw [if_pos hc]; exact stepOk_error d P he
  · rw [if_neg hc]; exact stepOk_pure d P

theorem stepOk_bind {d : HistDict} {s : Except PyErr HistDict}
    {f : HistDict → Except PyErr HistDict} {P : String → FillRec → Prop}
    (hs : StepOk d s P)
    (hf : ∀ d2, s = .ok d2 → akeys d2 = akeys d → StepOk d2 (f d2) P) :
    StepOk d (s >>= f) P := by
  cases hse : s with
  | error e =>
      show StepOk d (Except.error e) P
      constructor
      · intro k h
        have : e = .keyError k := (Except.error.injEq _ _).mp h
        exact hs.1 k (by rw [hse, this])
      · intro d2 h
        cases h
  | ok d2 =>
      have hks := (hs.2 d2 hse).1
      have recs := (hs.2 d2 hse).2
      have hstep := hf d2 hse hks
      show StepOk d (f d2) P
      constructor
      · exact hstep.1
      · intro d3 h
        obtain ⟨hk3, hr3⟩ := hstep.2 d3 h
        refine ⟨hk3.trans hks, fun m h3 hm r hr => ?_⟩
        rcases hr3 m h3 hm r hr with ⟨h2, hm2, hr2⟩ | hp
        · rcases recs m h2 hm2 r hr2 with h1 | hp
          · exact Or.inl h1
          · exact Or.inr hp
        · exact Or.inr hp

theorem cutStep_error {m : Option (Obj → Bool)} {vc : String × ℚ} {e : PyErr}
    (h : cutStep m vc = .error e) : e = .nameError "mask" := by
  unfold cutStep at h
  by_cases h1 : vc.1 = "eta"
  · rw [if_pos h1] at h
    rcases hm : (if vc.1 = "pt" then some fun o => decide (o.pt > vc.2) else m) with _ | f
    · rw [hm] at h
      exact ((Except.error.injEq _ _).mp h).symm
    · rw [hm] at h
      cases h
  · rw [if_neg h1] at h
    cases h

theorem foldl_cutStep_error {cuts : List (String × ℚ)} :
    ∀ {m : Option (Obj → Bool)} {e : PyErr},
      cuts.foldlM cutStep m = .error e → e = .nameError "mask" := by
  induction cuts with
  | nil =>
      intro m e h
      cases h
  | cons c rest ih =>
      intro m e h
      rw [List.foldlM_cons] at h
      cases hc : cutStep m c with
      | error e2 =>
          rw [hc] at h
          simp only [error_bind] at h
          have he : e2 = e := (Except.error.injEq _ _).mp h
          exact he ▸ cutStep_error hc
      | ok m2 =>
          rw [hc] at h
          simp only [ok_bind] at h
          exact ih h

theorem cutsMask_error {cuts : List (String × ℚ)} {e : PyErr}
    (h : cutsMask cuts = .error e) : e = .nameError "mask" := by
  unfold cutsMask at h
  cases hf : cuts.foldlM cutStep none with
  | error e2 =>
      rw [hf] at h
      simp only [error_bind] at h
      have he : e2 = e := (Except.error.injEq _ _).mp h
      exact he ▸ foldl_cutStep_error hf
  | ok m =>
      rw [hf] at h
      simp only [ok_bind] at h
      cases m with
      | none => exact ((Except.error.injEq _ _).mp h).symm
      | some f => cases h

theorem KeysInv.cast {cfg : HistsCfg} {d d2 : HistDict}
    (h : KeysInv cfg d) (he : akeys d2 = akeys d) : KeysInv cfg d2 := by
  constructor <;> intro hmem <;> rw [he]
  · exact h.hl1ht hmem
  · exact h.hl1met hmem
  · exact h.hsht hmem
  · exact h.hsmet hmem
  · exact h.hsmult hmem
  · exact h.hspt hmem
  · exact h.hn hmem
  · exact h.hpt hmem
  · exact h.hpt0 hmem
  · exact h.hpt1 hmem
  · exact h.heta hmem
  · exact h.hphi hmem

theorem fillObjOne_stepOk (cfg : HistsCfg) (evs : List Event) (path : String)
    (odict : List (String × ObjSpec)) (p : String × ObjSpec) (d : HistDict)
    (hinv : KeysInv cfg d) (hp : p ∈ odict) :
    StepOk d (fillObjOne cfg evs (lastComponent path) p d)
      (PathRec odict evs path) := by
  unfold fillObjOne
  cases hg : objFieldGetter p.1 with
  | none => exact stepOk_error _ _ (fun k h => by cases h)
  | some g =>
      cases hc : cutsMask p.2.cuts with
      | error e =>
          have he := cutsMask_error hc
          subst he
          exact stepOk_error _ _ (fun k h => by cases h)
      | ok mf =>
          have hct : cutsMaskTotal p.2.cuts = some mf := by
            unfold cutsMaskTotal
            rw [hc]
          have mkP : ∀ (name obsN : String) (vals : List (Option ℚ)),
              name ∈ objFillNames → objWhichVals p name evs = vals →
              PathRec odict evs path name ⟨lastComponent path, some p.1, obsN, vals⟩ := by
            intro name obsN vals hnm hv
            exact ⟨rfl, Or.inr ⟨p, hp, rfl, hnm, hv.symm⟩⟩
          have hwv : ∀ name, objWhichVals p name evs =
              (if name = "n_obj" then nVals (objsAfterCuts p.1 g mf) evs
               else if name = "pt_obj" then ptVals (objsAfterCuts p.1 g mf) evs
               else if name = "pt0_obj" then pt0Vals (objsAfterCuts p.1 g mf) evs
               else if name = "pt1_obj" then pt1Vals (objsAfterCuts p.1 g mf) evs
               else if name = "eta_obj" then etaVals (objsAfterCuts p.1 g mf) evs
               else if name = "phi_obj" then phiVals (objsAfterCuts p.1 g mf) evs
               else []) := by
            intro name
            unfold objWhichVals
            rw [hg, hct]
          refine stepOk_bind (stepOk_condFill (fun h => hinv.hn h)
            (mkP _ _ _ (by simp [objFillNames]) (by rw [hwv]; rfl)))
            (fun d1 h1 hk1 => ?_)
          have hinv1 := hinv.cast hk1
          refine stepOk_bind (stepOk_condFill (fun h => hinv1.hpt h)
            (mkP _ _ _ (by simp [objFillNames]) (by rw [hwv]; rfl)))
            (fun d2 h2 hk2 => ?_)
          have hinv2 := hinv1.cast hk2
          refine stepOk_bind (stepOk_condFill (fun h => hinv2.hpt0 h)
            (mkP _ _ _ (by simp [objFillNames]) (by rw [hwv]; rfl)))
            (fun d3 h3 hk3 => ?_)
          have hinv3 := hinv2.cast hk3
          refine stepOk_bind (stepOk_condFill (fun h => hinv3.hpt1 h)
            (mkP _ _ _ (by simp [objFillNames]) (by rw [hwv]; rfl)))
            (fun d4 h4 hk4 => ?_)
          have hinv4 := hinv3.cast hk4
          refine stepOk_bind (stepOk_condFill (fun h => hinv4.heta h)
            (mkP _ _ _ (by simp [objFillNames]) (by rw [hwv]; rfl)))
            (fun d5 h5 hk5 => ?_)
          have hinv5 := hinv4.cast hk5
          exact stepOk_condFill (fun h => hinv5.hphi h)
            (mkP _ _ _ (by simp [objFillNames]) (by rw [hwv]; rfl))

theorem foldObj_stepOk (cfg : HistsCfg) (evs : List Event) (path : String)
    (odict : List (String × ObjSpec)) :
    ∀ (rem : List (String × ObjSpec)), (∀ p ∈ rem, p ∈ odict) →
    ∀ d : HistDict, KeysInv cfg d →
    StepOk d (rem.foldlM (fun d p => fillObjOne cfg evs (lastComponent path) p d) d)
      (PathRec odict evs path) := by
  intro rem
  induction rem with
  | nil =>
      intro _ d hinv
      rw [List.foldlM_nil]
      exact stepOk_pure d _
  | cons p rest ih =>
      intro hsub d hinv
      rw [List.foldlM_cons]
      refine stepOk_bind (fillObjOne_stepOk cfg evs path odict p d hinv
        (hsub p (List.mem_cons_self p rest))) (fun d2 h2 hk2 => ?_)
      exact ih (fun q hq => hsub q (List.mem_cons_of_mem p hq)) d2 (hinv.cast hk2)

theorem fillTrigger_stepOk (odict : List (String × ObjSpec)) (cfg : HistsCfg)
    (events : List Event) (d : HistDict) (path : String)
    (hinv : KeysInv cfg d) (hodict : ∀ p ∈ odict, p ∈ odict) :
    StepOk d (fillTrigger odict cfg events d path)
      (PathRec odict (events.filter (trigPass path)) path) := by
  have mkS : ∀ (name obsN : String) (vals : List (Option ℚ)),
      name ∈ scalarFillNames →
      scalarFillValues name (events.filter (trigPass path)) = vals →
      PathRec odict (events.filter (trigPass path)) path name
        ⟨lastComponent path, none, obsN, vals⟩ := by
    intro name obsN vals hnm hv
    exact ⟨rfl, Or.inl ⟨rfl, hnm, hv.symm⟩⟩
  unfold fillTrigger
  refine stepOk_bind (stepOk_condFill (fun h => hinv.hl1ht h)
    (mkS _ _ _ (by simp [scalarFillNames]) (by simp [scalarFillValues])))
    (fun d1 h1 hk1 => ?_)
  have hinv1 := hinv.cast hk1
  refine stepOk_bind (stepOk_condFill (fun h => hinv1.hl1met h)
    (mkS _ _ _ (by simp [scalarFillNames]) (by simp [scalarFillValues])))
    (fun d2 h2 hk2 => ?_)
  have hinv2 := hinv1.cast hk2
  refine stepOk_bind (stepOk_condThrow (fun k h => by cases h))
    (fun d3 h3 hk3 => ?_)
  have hinv3 := hinv2.cast hk3
  refine stepOk_bind (stepOk_condThrow (fun k h => by cases h))
    (fun d4 h4 hk4 => ?_)
  have hinv4 := hinv3.cast hk4
  refine stepOk_bind (stepOk_condFill (fun h => hinv4.hsht h)
    (mkS _ _ _ (by simp [scalarFillNames]) (by simp [scalarFillValues])))
    (fun d5 h5 hk5 => ?_)
  have hinv5 := hinv4.cast hk5
  refine stepOk_bind (stepOk_condFill (fun h => hinv5.hsmet h)
    (mkS _ _ _ (by simp [scalarFillNames]) (by simp [scalarFillValues])))
    (fun d6 h6 hk6 => ?_)
  have hinv6 := hinv5.cast hk6
  refine stepOk_bind (stepOk_condFill (fun h => hinv6.hsmult h)
    (mkS _ _ _ (by simp [scalarFillNames]) (by simp [scalarFillValues])))
    (fun d7 h7 hk7 => ?_)
  have hinv7 := hinv6.cast hk7
  refine stepOk_bind (stepOk_condFill (fun h => hinv7.hspt h)
    (mkS _ _ _ (by simp [scalarFillNames]) (by simp [scalarFillValues])))
    (fun d8 h8 hk8 => ?_)
  have hinv8 := hinv7.cast hk8
  exact foldObj_stepOk cfg (events.filter (trigPass path)) path odict odict
    hodict d8 hinv8

theorem loop_stepOk (odict : List (String × ObjSpec)) (cfg : HistsCfg)
    (events : List Event) (triggers : List String) :
    ∀ (rem : List String), (∀ q ∈ rem, q ∈ triggers) →
    ∀ d : HistDict, KeysInv cfg d →
    StepOk d (rem.foldlM (fun d path => fillTrigger odict cfg events d path) d)
      (fun name r => ∃ path ∈ triggers,
        PathRec odict (events.filter (trigPass path)) path name r) := by
  intro rem
  induction rem with
  | nil =>
      intro _ d hinv
      rw [List.foldlM_nil]
      exact stepOk_pure d _
  | cons q rest ih =>
      intro hsub d hinv
      rw [List.foldlM_cons]
      refine stepOk_bind (stepOk_mono ?_
        (fillTrigger_stepOk odict cfg events d q hinv (fun p hp => hp)))
        (fun d2 h2 hk2 => ?_)
      · intro name r hr
        exact ⟨q, hsub q (List.mem_cons_self q rest), hr⟩
      · exact ih (fun z hz => hsub z (List.mem_cons_of_mem q hz)) d2 (hinv.cast hk2)

theorem mem_akeys_make_1d_hist (d : HistDict) (n : String) (t o : Axis)
    (ob : Option Axis) (k : String) :
    k ∈ akeys (make_1d_hist d n t o ob) ↔ k ∈ akeys d ∨ k = n := by
  cases ob with
  | none => exact mem_akeys_aset d n k _
  | some oa => exact mem_akeys_aset d n k _

theorem mem_akeys_ite_make (c : Prop) [Decidable c] (d : HistDict) (n : String)
    (t o : Axis) (ob : Option Axis) (k : String) :
    k ∈ akeys (if c then make_1d_hist d n t o ob else d) ↔
      (c ∧ k = n) ∨ k ∈ akeys d := by
  by_cases hc : c
  · rw [if_pos hc, mem_akeys_make_1d_hist]
    tauto
  · rw [if_neg hc]
    tauto

theorem fillsEmpty_make (d : HistDict) (n : String) (t o : Axis) (ob : Option Axis)
    (hd : ∀ m h, alookup d m = some h → h.fills = []) :
    ∀ m h, alookup (make_1d_hist d n t o ob) m = some h → h.fills = [] := by
  intro m h hm
  cases ob with
  | none =>
      unfold make_1d_hist at hm
      rw [alookup_aset] at hm
      by_cases hmn : m = n
      · rw [if_pos hmn] at hm
        have := (Option.some.injEq _ _).mp hm
        rw [this.symm]
      · rw [if_neg hmn] at hm
        exact hd m h hm
  | some oa =>
      unfold make_1d_hist at hm
      rw [alookup_aset] at hm
      by_cases hmn : m = n
      · rw [if_pos hmn] at hm
        have := (Option.some.injEq _ _).mp hm
        rw [this.symm]
      · rw [if_neg hmn] at hm
        exact hd m h hm

theorem fillsEmpty_ite_make (c : Prop) [Decidable c] (d : HistDict) (n : String)
    (t o : Axis) (ob : Option Axis)
    (hd : ∀ m h, alookup d m = some h → h.fills = []) :
    ∀ m h, alookup (if c then make_1d_hist d n t o ob else d) m = some h →
      h.fills = [] := by
  by_cases hc : c
  · rw [if_pos hc]
    exact fillsEmpty_make d n t o ob hd
  · rw [if_neg hc]
    exact hd

theorem mem_akeys_creStepScalar (cfg : HistsCfg) (gate name : String) (ax : Axis)
    (d : HistDict) (k : String) :
    k ∈ akeys (creStepScalar cfg gate name ax d) ↔
      (gate ∈ cfg.scalar1d ∧ k = name) ∨ k ∈ akeys d :=
  mem_akeys_ite_make _ _ _ _ _ _ _

theorem mem_akeys_creStepObj (cfg : HistsCfg) (gate name : String) (ax : Axis)
    (d : HistDict) (k : String) :
    k ∈ akeys (creStepObj cfg gate name ax d) ↔
      (gate ∈ cfg.object1d ∧ k = name) ∨ k ∈ akeys d :=
  mem_akeys_ite_make _ _ _ _ _ _ _

theorem fillsEmpty_creStepScalar (cfg : HistsCfg) (gate name : String) (ax : Axis)
    (d : HistDict) (hd : ∀ m h, alookup d m = some h → h.fills = []) :
    ∀ m h, alookup (creStepScalar cfg gate name ax d) m = some h → h.fills = [] :=
  fillsEmpty_ite_make _ _ _ _ _ _ hd

theorem fillsEmpty_creStepObj (cfg : HistsCfg) (gate name : String) (ax : Axis)
    (d : HistDict) (hd : ∀ m h, alookup d m = some h → h.fills = []) :
    ∀ m h, alookup (creStepObj cfg gate name ax d) m = some h → h.fills = [] :=
  fillsEmpty_ite_make _ _ _ _ _ _ hd

theorem createHists_mem_total_l1pt {cfg : HistsCfg}
    (h : "total_l1pt" ∈ cfg.scalar1d) :
    createHists cfg = .error .typeError := by
  unfold createHists
  rw [if_pos h]
  rfl

set_option maxHeartbeats 1000000 in
theorem createHists_ok_props {cfg : HistsCfg} {d : HistDict}
    (hok : createHists cfg = .ok d) :
    (∀ k, k ∈ akeys d ↔
      ("phi" ∈ cfg.object1d ∧ k = "phi_obj") ∨
      ("eta" ∈ cfg.object1d ∧ k = "eta_obj") ∨
      ("pt1" ∈ cfg.object1d ∧ k = "pt1_obj") ∨
      ("pt0" ∈ cfg.object1d ∧ k = "pt0_obj") ∨
      ("pt" ∈ cfg.object1d ∧ k = "pt_obj") ∨
      ("n" ∈ cfg.object1d ∧ k = "n_obj") ∨
      ("total_scoutingpt" ∈ cfg.scalar1d ∧ k = "total_scoutingpt") ∨
      ("total_scoutingmult" ∈ cfg.scalar1d ∧ k = "total_scoutingmult") ∨
      ("scoutingmet" ∈ cfg.scalar1d ∧ k = "scoutingmet") ∨
      ("scoutinght" ∈ cfg.scalar1d ∧ k = "scoutinght") ∨
      ("total_l1mult" ∈ cfg.scalar1d ∧ k = "total_l1mult") ∨
      ("l1met" ∈ cfg.scalar1d ∧ k = "l1met") ∨
      ("l1ht" ∈ cfg.scalar1d ∧ k = "l1ht")) ∧
    (∀ m h2, alookup d m = some h2 → h2.fills = []) := by
  by_cases hpt : "total_l1pt" ∈ cfg.scalar1d
  · rw [createHists_mem_total_l1pt hpt] at hok
    cases hok
  · unfold createHists at hok
    rw [if_neg hpt] at hok
    simp only [ok_bind] at hok
    have hd := (Except.ok.injEq _ _).mp hok
    rw [hd.symm]
    constructor
    · intro k
      simp only [mem_akeys_creStepScalar, mem_akeys_creStepObj]
      simp only [akeys, List.map_nil, List.not_mem_nil, or_false]
    · refine fillsEmpty_creStepObj _ _ _ _ _ (fillsEmpty_creStepObj _ _ _ _ _
        (fillsEmpty_creStepObj _ _ _ _ _ (fillsEmpty_creStepObj _ _ _ _ _
        (fillsEmpty_creStepObj _ _ _ _ _ (fillsEmpty_creStepObj _ _ _ _ _
        (fillsEmpty_creStepScalar _ _ _ _ _ (fillsEmpty_creStepScalar _ _ _ _ _
        (fillsEmpty_creStepScalar _ _ _ _ _ (fillsEmpty_creStepScalar _ _ _ _ _
        (fillsEmpty_creStepScalar _ _ _ _ _ (fillsEmpty_creStepScalar _ _ _ _ _
        (fillsEmpty_creStepScalar _ _ _ _ _ ?_))))))))))))
      intro m h2 hm
      simp [alookup] at hm

theorem createHists_keysInv {cfg : HistsCfg} {d : HistDict}
    (hok : createHists cfg = .ok d) : KeysInv cfg d := by
  have hmem := (createHists_ok_props hok).1
  constructor <;> intro h <;> rw [hmem]
  · exact Or.inr (Or.inr (Or.inr (Or.inr (Or.inr (Or.inr (Or.inr (Or.inr
      (Or.inr (Or.inr (Or.inr (Or.inr ⟨h, rfl⟩)))))))))))
  · exact Or.inr (Or.inr (Or.inr (Or.inr (Or.inr (Or.inr (Or.inr (Or.inr
      (Or.inr (Or.inr (Or.inr (Or.inl ⟨h, rfl⟩)))))))))))
  · exact Or.inr (Or.inr (Or.inr (Or.inr (Or.inr (Or.inr (Or.inr (Or.inr
      (Or.inr (Or.inl ⟨h, rfl⟩)))))))))
  · exact Or.inr (Or.inr (Or.inr (Or.inr (Or.inr (Or.inr (Or.inr (Or.inr
      (Or.inl ⟨h, rfl⟩))))))))
  · exact Or.inr (Or.inr (Or.inr (Or.inr (Or.inr (Or.inr (Or.inr
      (Or.inl ⟨h, rfl⟩)))))))
  · exact Or.inr (Or.inr (Or.inr (Or.inr (Or.inr (Or.inr
      (Or.inl ⟨h, rfl⟩))))))
  · exact Or.inr (Or.inr (Or.inr (Or.inr (Or.inr (Or.inl ⟨h, rfl⟩)))))
  · exact Or.inr (Or.inr (Or.inr (Or.inr (Or.inl ⟨h, rfl⟩))))
  · exact Or.inr (Or.inr (Or.inr (Or.inl ⟨h, rfl⟩)))
  · exact Or.inr (Or.inr (Or.inl ⟨h, rfl⟩))
  · exact Or.inr (Or.inl ⟨h, rfl⟩)
  · exact Or.inl ⟨h, rfl⟩

theorem createHists_error {cfg : HistsCfg} {e : PyErr}
    (h : createHists cfg = .error e) : e = .typeError := by
  by_cases hpt : "total_l1pt" ∈ cfg.scalar1d
  · rw [createHists_mem_total_l1pt hpt] at h
    exact ((Except.error.injEq _ _).mp h).symm
  · unfold createHists at h
    rw [if_neg hpt] at h
    simp only [ok_bind] at h
    cases h

theorem satStage_error {events : List Event} {e : PyErr}
    (h : satStage events = .error e) : e = .valueError := by
  simp only [satStage] at h
  split at h
  · cases h
  · exact ((Except.error.injEq _ _).mp h).symm

theorem maskFilter_cons {α : Type} (a : α) (l : List α) (b : Bool) (m : List Bool) :
    maskFilter (a :: l) (b :: m) = if b then a :: maskFilter l m else maskFilter l m := by
  unfold maskFilter
  cases b <;> simp

theorem satStage_uniform {events : List Event}
    (h : uniformEtSum events = true) :
    satStage events = .ok (events.filter satPass) := by
  unfold uniformEtSum at h
  rw [List.all_eq_true] at h
  unfold satStage
  have main : ∀ (l : List Event), (∀ e ∈ l, ((metSums e).length == 1) = true) →
      (l.flatMap fun e => (metSums e).map fun q => decide (q < 1040)).length = l.length ∧
      maskFilter l (l.flatMap fun e => (metSums e).map fun q => decide (q < 1040)) =
        l.filter fun e => (metSums e).all fun q => decide (q < 1040) := by
    intro l
    induction l with
    | nil => simp [maskFilter]
    | cons e rest ih =>
        intro hl
        have he : (metSums e).length = 1 := by
          simpa using hl e (List.mem_cons_self e rest)
        obtain ⟨q, hq⟩ : ∃ q, metSums e = [q] := by
          cases hm : metSums e with
          | nil => rw [hm] at he; cases he
          | cons q t =>
              rw [hm] at he
              simp only [List.length_cons, Nat.succ.injEq] at he
              exact ⟨q, by rw [List.length_eq_zero.mp he]⟩
        obtain ⟨ihl, ihf⟩ := ih (fun x hx => hl x (List.mem_cons_of_mem e hx))
        constructor
        · simp [hq, ihl]
        · rw [List.flatMap_cons, hq]
          simp only [List.map_cons, List.map_nil, List.singleton_append]
          rw [maskFilter_cons, List.filter_cons]
          by_cases hgq : decide (q < 1040) = true
          · rw [if_pos hgq, ihf]
            have : ((metSums e).all fun q => decide (q < 1040)) = true := by
              rw [hq]; simp [hgq]
            rw [if_pos this]
          · rw [if_neg hgq, ihf]
            have : ¬ ((metSums e).all fun q => decide (q < 1040)) = true := by
              rw [hq]; simpa using hgq
            rw [if_neg this]
  obtain ⟨hlen, hfil⟩ := main (events.filter satJetCut)
    (fun e he => h e he)
  rw [if_pos hlen, hfil]
  have hsp : (fun a => ((metSums a).all fun q => decide (q < 1040)) && satJetCut a)
      = satPass := by
    funext a
    unfold satPass
    rw [Bool.and_comm]
  rw [List.filter_filter, hsp]

theorem process_ok_parts {odict : List (String × ObjSpec)} {cfg : HistsCfg}
    {triggers : List String} {events : List Event} {d : HistDict}
    (hok : process odict cfg triggers events = .ok d) :
    ∃ evs d0, satStage events = .ok evs ∧ createHists cfg = .ok d0 ∧
      triggers.foldlM (fun d path => fillTrigger odict cfg evs d path) d0 = .ok d := by
  unfold process at hok
  cases hsat : satStage events with
  | error e =>
      rw [hsat] at hok
      simp only [error_bind] at hok
      cases hok
  | ok evs =>
      rw [hsat] at hok
      simp only [ok_bind] at hok
      cases hcr : createHists cfg with
      | error e =>
          rw [hcr] at hok
          simp only [error_bind] at hok
          cases hok
      | ok d0 =>
          rw [hcr] at hok
          simp only [ok_bind] at hok
          exact ⟨evs, d0, rfl, rfl, hok⟩

theorem process_ok_keys {odict : List (String × ObjSpec)} {cfg : HistsCfg}
    {triggers : List String} {events : List Event} {d : HistDict}
    (hok : process odict cfg triggers events = .ok d) :
    ∃ d0, createHists cfg = .ok d0 ∧ akeys d = akeys d0 := by
  obtain ⟨evs, d0, hsat, hcr, hloop⟩ := process_ok_parts hok
  have hinv := createHists_keysInv hcr
  have hstep := loop_stepOk odict cfg evs triggers triggers (fun q hq => hq) d0 hinv
  exact ⟨d0, hcr, (hstep.2 d hloop).1⟩

theorem process_records {odict : List (String × ObjSpec)} {cfg : HistsCfg}
    {triggers : List String} {events : List Event} {d : HistDict}
    (huni : uniformEtSum events = true)
    (hok : process odict cfg triggers events = .ok d) :
    ∀ name h, alookup d name = some h → ∀ r ∈ h.fills,
      ∃ path ∈ triggers, PathRec odict (filteredEvents events path) path name r := by
  obtain ⟨evs, d0, hsat, hcr, hloop⟩ := process_ok_parts hok
  rw [satStage_uniform huni] at hsat
  have hevs : evs = events.filter satPass := ((Except.ok.injEq _ _).mp hsat).symm
  subst hevs
  have hinv := createHists_keysInv hcr
  have hstep := loop_stepOk odict cfg (events.filter satPass) triggers triggers
    (fun q hq => hq) d0 hinv
  have hrec := (hstep.2 d hloop).2
  intro name h hl r hr
  rcases hrec name h hl r hr with ⟨h1, hl1, hr1⟩ | hp
  · have hfe := (createHists_ok_props hcr).2 name h1 hl1
    rw [hfe] at hr1
    cases hr1
  · exact hp

theorem fillObjOne_shape_eq (cfg : HistsCfg) (evs : List Event) (t : String)
    {p q : String × ObjSpec} (hn : p.1 = q.1) (hc : p.2.cuts = q.2.cuts)
    (d : HistDict) : fillObjOne cfg evs t p d = fillObjOne cfg evs t q d := by
  unfold fillObjOne
  rw [hn, hc]

theorem foldObj_shape_eq (cfg : HistsCfg) (evs : List Event) (t : String) :
    ∀ (od1 od2 : List (String × ObjSpec)),
    od1.map (fun p => (p.1, p.2.cuts)) = od2.map (fun p => (p.1, p.2.cuts)) →
    ∀ d : HistDict,
      od1.foldlM (fun d p => fillObjOne cfg evs t p d) d
        = od2.foldlM (fun d p => fillObjOne cfg evs t p d) d := by
  intro od1
  induction od1 with
  | nil =>
      intro od2 h d
      cases od2 with
      | nil => rfl
      | cons q rest2 => simp at h
  | cons p rest ih =>
      intro od2 h d
      cases od2 with
      | nil => simp at h
      | cons q rest2 =>
          simp only [List.map_cons, List.cons.injEq, Prod.mk.injEq] at h
          obtain ⟨⟨hn, hc⟩, ht⟩ := h
          rw [List.foldlM_cons, List.foldlM_cons,
            fillObjOne_shape_eq cfg evs t hn hc d]
          cases hfq : fillObjOne cfg evs t q d with
          | error e => rfl
          | ok d2 =>
              simp only [ok_bind]
              exact ih rest2 (by simpa using ht) d2

theorem bind_congr_ok {ε α β : Type} {x : Except ε α} {f g : α → Except ε β}
    (h : ∀ a, f a = g a) : (x >>= f) = (x >>= g) := by
  cases x with
  | error e => rfl
  | ok a =>
      simp only [ok_bind]
      exact h a

theorem fillTrigger_shape_eq (cfg : HistsCfg) (events : List Event) (path : String)
    (od1 od2 : List (String × ObjSpec))
    (hshape : od1.map (fun p => (p.1, p.2.cuts)) = od2.map (fun p => (p.1, p.2.cuts)))
    (d : HistDict) :
    fillTrigger od1 cfg events d path = fillTrigger od2 cfg events d path := by
  simp only [fillTrigger]
  refine bind_congr_ok (fun d1 => ?_)
  refine bind_congr_ok (fun d2 => ?_)
  refine bind_congr_ok (fun d3 => ?_)
  refine bind_congr_ok (fun d4 => ?_)
  refine bind_congr_ok (fun d5 => ?_)
  refine bind_congr_ok (fun d6 => ?_)
  refine bind_congr_ok (fun d7 => ?_)
  refine bind_congr_ok (fun d8 => ?_)
  exact foldObj_shape_eq cfg (events.filter (trigPass path)) (lastComponent path)
    od1 od2 hshape d8

/-- Claim C2 (counterexample): the spec says the `make_1d_hist()(...)` call
executed when `"total_l1pt"` is requested is a no-op after which `process`
continues without raising; in fact on a concrete run requesting
`total_l1pt` the call raises `TypeError` and `process` fails. -/
theorem C2_total_l1pt_counterexample :
    process object_dict ⟨["total_l1pt"], ["n"]⟩ ["DST_PFScouting_AXONominal"] []
      = .error .typeError := by
  decide

/-- Claim C2 (amended): whenever `"total_l1pt"` is among the requested
`1d_scalar` histograms (and the saturation mask of line 97 is well formed,
so that the run reaches the creation phase), the `make_1d_hist()(...)` call
at line 122 raises `TypeError` — `make_1d_hist` has four required positional
parameters and is called with zero — so `AXOHistFactory.process` raises
rather than continuing. -/
theorem C2_total_l1pt_raises_typeError (odict : List (String × ObjSpec))
    (cfg : HistsCfg) (triggers : List String) (events : List Event)
    (hpt : "total_l1pt" ∈ cfg.scalar1d) (huni : uniformEtSum events = true) :
    process odict cfg triggers events = .error .typeError := by
  unfold process
  rw [satStage_uniform huni]
  simp only [ok_bind]
  rw [createHists_mem_total_l1pt hpt]
  simp only [error_bind]

theorem C2_total_l1pt_raises_typeError_witness :
    "total_l1pt" ∈ (HistsCfg.mk ["total_l1pt"] []).scalar1d ∧
    uniformEtSum [] = true ∧
    process object_dict ⟨["total_l1pt"], []⟩ [] [] = .error .typeError :=
  ⟨by decide, by decide,
    C2_total_l1pt_raises_typeError object_dict ⟨["total_l1pt"], []⟩ [] []
      (by decide) (by decide)⟩

/-- Claim C3 (counterexample): the spec says the returned keys are a subset
of the configured observable names (the union of the `1d_scalar` and
`1d_object` lists); with `1d_object = ["n"]` the returned dict has key
`"n_obj"`, which is in neither list. -/
theorem C3_keys_counterexample :
    process object_dict ⟨[], ["n"]⟩ [] []
        = .ok [("n_obj", ⟨[trigger_axis, object_axis, mult_axis], .weight, []⟩)] ∧
    "n_obj" ∈ akeys
        [("n_obj", (⟨[trigger_axis, object_axis, mult_axis], .weight, []⟩ : Hist))] ∧
    "n_obj" ∉ (([] : List String) ++ ["n"]) := by
  refine ⟨by decide, by decide, by decide⟩

/-- Claim C3 (amended): for every configuration, the keys of the histogram
dictionary returned by `AXOHistFactory.process` are a subset of the
`1d_scalar` names together with the `1d_object` names suffixed by
`"_obj"`. -/
theorem C3_keys_amended (odict : List (String × ObjSpec)) (cfg : HistsCfg)
    (triggers : List String) (events : List Event) (d : HistDict)
    (hok : process odict cfg triggers events = .ok d) :
    ∀ k ∈ akeys d, k ∈ cfg.scalar1d ∨ ∃ o ∈ cfg.object1d, k = o ++ "_obj" := by
  obtain ⟨d0, hcr, hkeys⟩ := process_ok_keys hok
  intro k hk
  rw [hkeys] at hk
  rw [(createHists_ok_props hcr).1 k] at hk
  rcases hk with ⟨hm, he⟩ | ⟨hm, he⟩ | ⟨hm, he⟩ | ⟨hm, he⟩ | ⟨hm, he⟩ | ⟨hm, he⟩ |
    ⟨hm, he⟩ | ⟨hm, he⟩ | ⟨hm, he⟩ | ⟨hm, he⟩ | ⟨hm, he⟩ | ⟨hm, he⟩ | ⟨hm, he⟩
  · exact Or.inr ⟨"phi", hm, by rw [he]; decide⟩
  · exact Or.inr ⟨"eta", hm, by rw [he]; decide⟩
  · exact Or.inr ⟨"pt1", hm, by rw [he]; decide⟩
  · exact Or.inr ⟨"pt0", hm, by rw [he]; decide⟩
  · exact Or.inr ⟨"pt", hm, by rw [he]; decide⟩
  · exact Or.inr ⟨"n", hm, by rw [he]; decide⟩
  · exact Or.inl (he ▸ hm)
  · exact Or.inl (he ▸ hm)
  · exact Or.inl (he ▸ hm)
  · exact Or.inl (he ▸ hm)
  · exact Or.inl (he ▸ hm)
  · exact Or.inl (he ▸ hm)
  · exact Or.inl (he ▸ hm)

theorem C3_keys_amended_witness :
    process object_dict ⟨["scoutinght"], []⟩ [] []
        = .ok [("scoutinght", ⟨[trigger_axis, ht_axis], .weight, []⟩)] ∧
    (∀ k ∈ akeys
        [("scoutinght", (⟨[trigger_axis, ht_axis], .weight, []⟩ : Hist))],
      k ∈ (HistsCfg.mk ["scoutinght"] []).scalar1d ∨
        ∃ o ∈ (HistsCfg.mk ["scoutinght"] []).object1d, k = o ++ "_obj") :=
  ⟨by decide,
    C3_keys_amended object_dict ⟨["scoutinght"], []⟩ [] []
      [("scoutinght", ⟨[trigger_axis, ht_axis], .weight, []⟩)] (by decide)⟩

/-- Claim C4: every `make_1d_hist` call made with the factory's axes
returns a dictionary mapping `hist_name` to a histogram whose axes are
exactly the growable string-category trigger axis, then (when an object
axis is supplied) the growable string-category object axis, then one of
the fixed-width regular observable axes, with weight storage and no other
axes. -/
theorem C4_make_1d_hist_axes (d : HistDict) (n : String) (obs : Axis)
    (obOpt : Option Axis) (hobs : obs ∈ observableAxes)
    (hob : obOpt = none ∨ obOpt = some object_axis) :
    ∃ h : Hist, alookup (make_1d_hist d n trigger_axis obs obOpt) n = some h ∧
      h.axes = [trigger_axis] ++ obOpt.toList ++ [obs] ∧
      h.storage = .weight ∧ h.fills = [] ∧
      isGrowableStrCategory trigger_axis = true ∧
      (∀ a ∈ obOpt.toList, isGrowableStrCategory a = true) ∧
      isRegularAxis obs = true := by
  have hreg : isRegularAxis obs = true := by
    fin_cases hobs <;> rfl
  rcases hob with hob | hob
  · subst hob
    refine ⟨⟨[trigger_axis, obs], .weight, []⟩, ?_, by simp, rfl, rfl, rfl, by simp, hreg⟩
    unfold make_1d_hist
    exact alookup_aset_self _ _ _
  · subst hob
    refine ⟨⟨[trigger_axis, object_axis, obs], .weight, []⟩, ?_, by simp, rfl, rfl, rfl, ?_, hreg⟩
    · unfold make_1d_hist
      exact alookup_aset_self _ _ _
    · intro a ha
      simp only [Option.toList_some, List.mem_singleton] at ha
      rw [ha]
      rfl

theorem C4_make_1d_hist_axes_witness :
    ht_axis ∈ observableAxes ∧
    ((some object_axis : Option Axis) = none ∨
      (some object_axis : Option Axis) = some object_axis) ∧
    ∃ h : Hist,
      alookup (make_1d_hist [] "x" trigger_axis ht_axis (some object_axis)) "x"
        = some h ∧
      h.axes = [trigger_axis] ++ (some object_axis).toList ++ [ht_axis] ∧
      h.storage = .weight ∧ h.fills = [] ∧
      isGrowableStrCategory trigger_axis = true ∧
      (∀ a ∈ (some object_axis).toList, isGrowableStrCategory a = true) ∧
      isRegularAxis ht_axis = true :=
  ⟨by decide, Or.inr rfl,
    C4_make_1d_hist_axes [] "x" ht_axis (some object_axis) (by decide) (Or.inr rfl)⟩

/-- Claim C5: for every triggers list and configuration, every
`fill_1d_hist` call executed by the per-trigger loop targets a histogram
name already created in the creation phase; the dictionary lookup inside
`fill_1d_hist` never fails, i.e. `process` never raises `KeyError`. -/
theorem C5_fill_lookup_never_fails (odict : List (String × ObjSpec))
    (cfg : HistsCfg) (triggers : List String) (events : List Event)
    (k : String) :
    process odict cfg triggers events ≠ .error (.keyError k) := by
  intro h
  unfold process at h
  cases hsat : satStage events with
  | error e =>
      rw [hsat] at h
      simp only [error_bind] at h
      have he := (Except.error.injEq _ _).mp h
      have hv := satStage_error hsat
      rw [hv] at he
      cases he
  | ok evs =>
      rw [hsat] at h
      simp only [ok_bind] at h
      cases hcr : createHists cfg with
      | error e =>
          rw [hcr] at h
          simp only [error_bind] at h
          have he := (Except.error.injEq _ _).mp h
          have ht := createHists_error hcr
          rw [ht] at he
          cases he
      | ok d0 =>
          rw [hcr] at h
          simp only [ok_bind] at h
          have hinv := createHists_keysInv hcr
          exact (loop_stepOk odict cfg evs triggers triggers
            (fun q hq => hq) d0 hinv).1 k h

/-- Claim C6: every fill record in any histogram returned by
`AXOHistFactory.process` was filled under the trigger category
`path.split("_")[-1]` of some requested trigger path, from a column
computed from exactly the events that pass the saturation data-quality
cuts of lines 96-97 and that trigger path's selection.  (`uniformEtSum`
states the batch is well formed for the columnar mask of line 97.) -/
theorem C6_fills_pass_cuts_and_trigger (cfg : HistsCfg)
    (triggers : List String) (events : List Event) (d : HistDict)
    (huni : uniformEtSum events = true)
    (hok : process object_dict cfg triggers events = .ok d) :
    ∀ name h, alookup d name = some h → ∀ r ∈ h.fills,
      ∃ path ∈ triggers,
        r.trigger = lastComponent path ∧
        PathRec object_dict (filteredEvents events path) path name r ∧
        ∀ e ∈ filteredEvents events path,
          satPass e = true ∧ trigPass path e = true := by
  intro name h hl r hr
  obtain ⟨path, hpath, hpr⟩ := process_records huni hok name h hl r hr
  refine ⟨path, hpath, hpr.1, hpr, fun e he => ?_⟩
  unfold filteredEvents at he
  rw [List.mem_filter] at he
  obtain ⟨he1, he2⟩ := he
  rw [List.mem_filter] at he1
  exact ⟨he1.2, he2⟩

/-- Claim C8: when filled, the `total_scoutingpt` histogram receives per
event exactly the sum of the ScoutingPFJet transverse momenta: the
ScoutingElectron, ScoutingMuonVtx and ScoutingPhoton terms of lines
286-288 are separate unary-plus expression statements and contribute
nothing. -/
theorem C8_total_scoutingpt_jets_only (cfg : HistsCfg)
    (triggers : List String) (events : List Event) (d : HistDict) (hh : Hist)
    (huni : uniformEtSum events = true)
    (hok : process object_dict cfg triggers events = .ok d)
    (hl : alookup d "total_scoutingpt" = some hh) :
    ∀ r ∈ hh.fills, ∃ path ∈ triggers,
      r.trigger = lastComponent path ∧ r.object = none ∧
      r.values = (filteredEvents events path).map
        (fun e => some ((e.ScoutingPFJet.map Obj.pt).sum)) := by
  intro r hr
  obtain ⟨path, hpath, htrig, hrest⟩ :=
    process_records huni hok "total_scoutingpt" hh hl r hr
  rcases hrest with ⟨hobj, hmem, hvals⟩ | ⟨p, hp, hobj, hmem, hvals⟩
  · refine ⟨path, hpath, htrig, hobj, ?_⟩
    rw [hvals]
    simp [scalarFillValues, scoutingptVals, qsum_eq_sum]
  · exfalso
    simp [objFillNames] at hmem

theorem C6_fills_pass_cuts_and_trigger_witness :
    uniformEtSum [eWit] = true ∧
    process object_dict ⟨["scoutingmet"], []⟩ ["L1_Foo"] [eWit] = .ok dC6 ∧
    (∀ name h, alookup dC6 name = some h → ∀ r ∈ h.fills,
      ∃ path ∈ ["L1_Foo"],
        r.trigger = lastComponent path ∧
        PathRec object_dict (filteredEvents [eWit] path) path name r ∧
        ∀ e ∈ filteredEvents [eWit] path,
          satPass e = true ∧ trigPass path e = true) :=
  ⟨by decide, by decide,
    C6_fills_pass_cuts_and_trigger ⟨["scoutingmet"], []⟩ ["L1_Foo"] [eWit] dC6
      (by decide) (by decide)⟩

/-- Claim C7: the `label` entries stored in `object_dict` are never read by
`AXOHistFactory.process`: two runs on the same events whose object dicts
agree on names and cuts but differ arbitrarily in labels return identical
histogram dictionaries. -/
theorem C7_label_unused (cfg : HistsCfg) (triggers : List String)
    (events : List Event) (od1 od2 : List (String × ObjSpec))
    (hshape : od1.map (fun p => (p.1, p.2.cuts))
      = od2.map (fun p => (p.1, p.2.cuts))) :
    process od1 cfg triggers events = process od2 cfg triggers events := by
  unfold process
  cases hsat : satStage events with
  | error e => simp only [error_bind]
  | ok evs =>
      simp only [ok_bind]
      cases hcr : createHists cfg with
      | error e => simp only [error_bind]
      | ok d0 =>
          simp only [ok_bind]
          have hfn : (fun (d : HistDict) (path : String) =>
                fillTrigger od1 cfg evs d path)
              = fun d path => fillTrigger od2 cfg evs d path := by
            funext d path
            exact fillTrigger_shape_eq cfg evs path od1 od2 hshape d
          rw [hfn]

theorem C7_label_unused_witness :
    (object_dict.map (fun p => (p.1, p.2.cuts))
      = odAltLabels.map (fun p => (p.1, p.2.cuts))) ∧
    process object_dict ⟨["scoutingmet"], ["n"]⟩ ["L1_Foo"] [eWit]
      = process odAltLabels ⟨["scoutingmet"], ["n"]⟩ ["L1_Foo"] [eWit] :=
  ⟨by decide,
    C7_label_unused ⟨["scoutingmet"], ["n"]⟩ ["L1_Foo"] [eWit]
      object_dict odAltLabels (by decide)⟩

theorem C8_total_scoutingpt_jets_only_witness :
    uniformEtSum [eWit] = true ∧
    process object_dict ⟨["total_scoutingpt"], []⟩
        ["DST_PFScouting_AXONominal"] [eWit]
      = .ok [("total_scoutingpt", hC8)] ∧
    alookup [("total_scoutingpt", hC8)] "total_scoutingpt" = some hC8 ∧
    (∀ r ∈ hC8.fills, ∃ path ∈ ["DST_PFScouting_AXONominal"],
      r.trigger = lastComponent path ∧ r.object = none ∧
      r.values = (filteredEvents [eWit] path).map
        (fun e => some ((e.ScoutingPFJet.map Obj.pt).sum))) :=
  ⟨by decide, by decide, by decide,
    C8_total_scoutingpt_jets_only ⟨["total_scoutingpt"], []⟩
      ["DST_PFScouting_AXONominal"] [eWit] [("total_scoutingpt", hC8)] hC8
      (by decide) (by decide) (by decide)⟩

end Axo

theorem maskFilter_map {α : Type} (l : List α) (p : α → Bool) :
    maskFilter l (l.map p) = l.filter p := by
  induction l with
  | nil => rfl
  | cons a rest ih =>
      rw [List.map_cons, Axo.maskFilter_cons, List.filter_cons, ih]

theorem zipAnd_map_map {α : Type} (l : List α) (p q : α → Bool) :
    zipAnd (l.map p) (l.map q) = l.map fun a => p a && q a := by
  induction l with
  | nil => rfl
  | cons a rest ih =>
      unfold zipAnd at *
      simp only [List.map_cons, List.zip_cons_cons]
      rw [ih]

theorem map_eq_flatMap {α β : Type} (l : List α) (f : α → β) :
    l.map f = l.flatMap fun a => [f a] := by
  induction l with
  | nil => rfl
  | cons a rest ih =>
      rw [List.map_cons, List.flatMap_cons, ih]
      rfl

theorem sublist_flatMap {α β : Type} {s t : List α} (h : s.Sublist t)
    (g : α → List β) : (s.flatMap g).Sublist (t.flatMap g) := by
  induction h with
  | slnil => exact List.Sublist.refl _
  | cons a h ih =>
      rw [List.flatMap_cons]
      exact ih.trans (List.sublist_append_right _ _)
  | cons₂ a h ih =>
      rw [List.flatMap_cons, List.flatMap_cons]
      exact ih.append_left _

theorem filter_and_sublist {α : Type} (l : List α) (p m : α → Bool) :
    (l.filter fun a => p a && m a).Sublist (l.filter p) := by
  have hcomm : (fun a => p a && m a) = fun a => m a && p a := by
    funext a
    exact Bool.and_comm _ _
  rw [hcomm, ← List.filter_filter]
  exact List.filter_sublist _

theorem countP_flatMap_and_le {α β : Type} (l : List α) (p m : α → Bool)
    (g : α → List β) (q : β → Bool) :
    ((l.filter fun a => p a && m a).flatMap g).countP q ≤
      ((l.filter p).flatMap g).countP q :=
  List.Sublist.countP_le q (sublist_flatMap (filter_and_sublist l p m) g)

namespace EffP

theorem effFold_ok {evts : List Event} {select zb : List Bool}
    {l1fields : List String} :
    ∀ (L1s : List String) (hs0 : EffHist × EffHist × EffHist),
    (∀ s ∈ L1s, s ∈ l1fields) →
    L1s.foldlM (numStep evts select zb l1fields) hs0 =
      .ok (⟨hs0.1.fills ++ L1s.map fun s =>
             ⟨some s, htValsM (zipAnd (zipAnd select zb)
               (evts.map fun e => e.L1 s)) evts⟩⟩,
           ⟨hs0.2.1.fills ++ L1s.map fun s =>
             ⟨some s, metValsM (zipAnd (zipAnd select zb)
               (evts.map fun e => e.L1 s)) evts⟩⟩,
           ⟨hs0.2.2.fills ++ L1s.map fun s =>
             ⟨some s, jetptValsM (zipAnd (zipAnd select zb)
               (evts.map fun e => e.L1 s)) evts⟩⟩) := by
  intro L1s
  induction L1s with
  | nil =>
      intro hs0 _
      obtain ⟨⟨f1⟩, ⟨f2⟩, ⟨f3⟩⟩ := hs0
      rw [List.foldlM_nil]
      simp
      rfl
  | cons s rest ih =>
      intro hs0 hmem
      rw [List.foldlM_cons]
      have hstep : numStep evts select zb l1fields hs0 s =
          .ok (effFill hs0.1 (some s)
                (htValsM (zipAnd (zipAnd select zb) (evts.map fun e => e.L1 s)) evts),
               effFill hs0.2.1 (some s)
                (metValsM (zipAnd (zipAnd select zb) (evts.map fun e => e.L1 s)) evts),
               effFill hs0.2.2 (some s)
                (jetptValsM (zipAnd (zipAnd select zb) (evts.map fun e => e.L1 s)) evts)) := by
        unfold numStep
        rw [if_pos (hmem s (List.mem_cons_self s rest))]
      rw [hstep]
      simp only [ok_bind]
      rw [ih _ (fun x hx => hmem x (List.mem_cons_of_mem s hx))]
      simp [effFill, List.append_assoc]

set_option maxHeartbeats 1000000 in
theorem process_parts (L1s : List String) (ev : Events)
    (hmem : ∀ s ∈ L1s, s ∈ ev.l1fields) :
    ∃ r : EffResult, process L1s ev = .ok r ∧
      r.ht_den.fills = [⟨some "ZeroBias", htValsP denPass ev.evts⟩] ∧
      r.met_den.fills = [⟨some "ZeroBias", metValsP denPass ev.evts⟩] ∧
      r.jetpt_den.fills = [⟨some "ZeroBias", jetptValsP denPass ev.evts⟩] ∧
      r.ht_num.fills = (L1s.map fun s =>
          ⟨some s, htValsP (fun e => denPass e && e.L1 s) ev.evts⟩)
        ++ [⟨some "AXO_Nominal_HTT360er",
             htValsP (fun e => denPass e && axoOrHtt e) ev.evts⟩] ∧
      r.met_num.fills = (L1s.map fun s =>
          ⟨some s, metValsP (fun e => denPass e && e.L1 s) ev.evts⟩)
        ++ [⟨some "AXO_Nominal_HTT360er",
             metValsP (fun e => denPass e && axoOrHtt e) ev.evts⟩,
            ⟨some "AXO_Nominal_ETMHF70",
             metValsP (fun e => denPass e && axoOrEtm e) ev.evts⟩] ∧
      r.jetpt_num.fills = (L1s.map fun s =>
          ⟨some s, jetptValsP (fun e => denPass e && e.L1 s) ev.evts⟩)
        ++ [⟨some "AXO_Nominal_HTT360er",
             jetptValsP (fun e => denPass e && axoOrHtt e) ev.evts⟩] := by
  have hht : ∀ (p : Event → Bool),
      htValsM (ev.evts.map p) ev.evts = htValsP p ev.evts := by
    intro p
    unfold htValsM htValsP
    rw [maskFilter_map]
  have hmet : ∀ (p : Event → Bool),
      metValsM (ev.evts.map p) ev.evts = metValsP p ev.evts := by
    intro p
    unfold metValsM metValsP
    rw [maskFilter_map]
  have hjet : ∀ (p : Event → Bool),
      jetptValsM (ev.evts.map p) ev.evts = jetptValsP p ev.evts := by
    intro p
    unfold jetptValsM jetptValsP
    rw [maskFilter_map]
  have hdm : zipAnd (ev.evts.map jetAny) (ev.evts.map fun e => e.L1 "ZeroBias")
      = ev.evts.map denPass := zipAnd_map_map ev.evts _ _
  have hnm : ∀ (q : Event → Bool),
      zipAnd (zipAnd (ev.evts.map jetAny) (ev.evts.map fun e => e.L1 "ZeroBias"))
          (ev.evts.map q)
        = ev.evts.map fun e => denPass e && q e := by
    intro q
    rw [hdm, zipAnd_map_map]
  simp only [process, PUtil.add_selection, PUtil.selAll]
  rw [effFold_ok L1s (⟨[]⟩, ⟨[]⟩, ⟨[]⟩) hmem]
  simp only [ok_bind]
  refine ⟨_, rfl, ?_, ?_, ?_, ?_, ?_, ?_⟩
  · simp only [effFill, hdm, hht, List.nil_append]
  · simp only [effFill, hdm, hmet, List.nil_append]
  · simp only [effFill, hdm, hjet, List.nil_append]
  · simp only [effFill, hnm, hht, List.nil_append, List.append_assoc]
  · simp only [effFill, hnm, hmet, List.nil_append, List.append_assoc,
      List.singleton_append]
  · simp only [effFill, hnm, hjet, List.nil_append, List.append_assoc]

theorem filter_beq_map_cat {α : Type} (l : List α) (nm : α → String)
    (vf : α → List (Option ℚ)) (t : String) :
    (l.map fun x => (⟨some (nm x), vf x⟩ : EffFillRec)).filter
        (fun r => r.category == some t)
      = (l.filter fun x => nm x == t).map fun x => ⟨some (nm x), vf x⟩ := by
  induction l with
  | nil => rfl
  | cons a rest ih =>
      simp only [List.map_cons, List.filter_cons]
      have hcat : ((⟨some (nm a), vf a⟩ : EffFillRec).category == some t)
          = (nm a == t) := rfl
      rw [hcat]
      by_cases hat : (nm a == t) = true
      · rw [hat]
        simp only [if_pos]
        rw [List.map_cons, ih]
      · have : (nm a == t) = false := by
          simp only [Bool.not_eq_true] at hat
          exact hat
        rw [this]
        simp only [Bool.false_eq_true, if_false]
        exact ih

theorem binCount_den (vals : List (Option ℚ)) (b : ℕ) :
    binCount ⟨[⟨some "ZeroBias", vals⟩]⟩ "ZeroBias" b = vals.countP (inBin b) := by
  simp [binCount]

theorem extras_part_le {α : Type} (evts : List Event)
    (colf : Event → List (Option ℚ)) (t : String) (b : ℕ)
    (nm : α → String) (msk : α → Event → Bool) :
    ∀ (l : List α), (l.map nm).Nodup →
    ((((l.map fun x =>
          (⟨some (nm x), (evts.filter fun e => denPass e && msk x e).flatMap colf⟩
            : EffFillRec)).filter fun r => r.category == some t).map
        fun r => r.values.countP (inBin b)).sum
      ≤ if t ∈ l.map nm
          then ((evts.filter denPass).flatMap colf).countP (inBin b) else 0) := by
  intro l
  induction l with
  | nil =>
      intro _
      simp
  | cons x rest ih =>
      intro hnd
      rw [List.map_cons, List.map_cons] at *
      rw [List.nodup_cons] at hnd
      rw [List.filter_cons]
      have hcat : ((⟨some (nm x),
          (evts.filter fun e => denPass e && msk x e).flatMap colf⟩
          : EffFillRec).category == some t) = (nm x == t) := rfl
      rw [hcat]
      by_cases hxt : (nm x == t) = true
      · have hx1t : nm x = t := by
          simpa using hxt
        rw [hxt]
        simp only [if_pos]
        rw [List.map_cons, List.sum_cons]
        dsimp only
        have hrest := ih hnd.2
        have hrest0 : ((((rest.map fun x =>
            (⟨some (nm x), (evts.filter fun e => denPass e && msk x e).flatMap colf⟩
              : EffFillRec)).filter fun r => r.category == some t).map
            fun r => r.values.countP (inBin b)).sum) = 0 := by
          have hnt : t ∉ rest.map nm := by
            rw [hx1t.symm] at *
            exact fun hc => hnd.1 (by simpa using hc)
          rw [if_neg hnt] at hrest
          exact Nat.le_zero.mp hrest
        rw [hrest0]
        have hle := countP_flatMap_and_le evts denPass (msk x) colf (inBin b)
        have hmem : t ∈ nm x :: rest.map nm := by
          rw [hx1t.symm]
          exact List.mem_cons_self _ _
        rw [if_pos hmem]
        omega
      · have hf : (nm x == t) = false := by
          simp only [Bool.not_eq_true] at hxt
          exact hxt
        rw [hf]
        simp only [Bool.false_eq_true, if_false]
        have hrest := ih hnd.2
        by_cases hm : t ∈ rest.map nm
        · rw [if_pos hm] at hrest
          rw [if_pos (List.mem_cons_of_mem _ hm)]
          exact hrest
        · rw [if_neg hm] at hrest
          have hnotm : t ∉ nm x :: rest.map nm := by
            intro hc
            rcases List.mem_cons.mp hc with hc | hc
            · exact hxt (by simp [hc.symm])
            · exact hm hc
          rw [if_neg hnotm]
          exact hrest

theorem binCount_fills (h : EffHist) (l : List EffFillRec) (he : h.fills = l)
    (t : String) (b : ℕ) : binCount h t b = binCount ⟨l⟩ t b := by
  cases h
  cases he
  rfl

theorem binCount_two_parts_le (evts : List Event)
    (colf : Event → List (Option ℚ))
    (L1s : List String) (extras : List (String × (Event → Bool)))
    (hnd : L1s.Nodup) (hexnd : (extras.map Prod.fst).Nodup)
    (hdisj : ∀ x ∈ extras.map Prod.fst, x ∉ L1s) (t : String) (b : ℕ) :
    binCount ⟨(L1s.map fun s =>
        ⟨some s, (evts.filter fun e => denPass e && e.L1 s).flatMap colf⟩)
      ++ (extras.map fun x =>
        ⟨some x.1, (evts.filter fun e => denPass e && x.2 e).flatMap colf⟩)⟩ t b
    ≤ binCount ⟨[⟨some "ZeroBias", (evts.filter denPass).flatMap colf⟩]⟩
        "ZeroBias" b := by
  rw [binCount_den]
  simp only [binCount]
  rw [List.filter_append, List.map_append, List.sum_append]
  have hA := extras_part_le evts colf t b (fun s => s) (fun s e => e.L1 s) L1s
    (by simpa using hnd)
  have hB := extras_part_le evts colf t b Prod.fst Prod.snd extras hexnd
  simp only [List.map_id'] at hA
  refine le_trans (Nat.add_le_add hA hB) ?_
  by_cases h1 : t ∈ L1s
  · have h2 : t ∉ extras.map Prod.fst := fun hc => hdisj t hc h1
    rw [if_pos h1, if_neg h2]
    omega
  · rw [if_neg h1]
    by_cases h2 : t ∈ extras.map Prod.fst
    · rw [if_pos h2]
      omega
    · rw [if_neg h2]
      omega

/-- C1: in AXOEfficiencyProcessor.process the denominators are filled only
from events passing the zero-bias trigger and the jet selection, each
numerator record is filled from events additionally passing a further seed
test, and every numerator bin count is at most the denominator bin count. -/
theorem C1_eff_num_within_den (L1s : List String) (ev : Events)
    (hmem : ∀ s ∈ L1s, s ∈ ev.l1fields) (hnd : L1s.Nodup)
    (hhtt : "AXO_Nominal_HTT360er" ∉ L1s) (hetm : "AXO_Nominal_ETMHF70" ∉ L1s) :
    ∃ r : EffResult, process L1s ev = .ok r ∧
      (r.ht_den.fills = [⟨some "ZeroBias", htValsP denPass ev.evts⟩] ∧
       r.met_den.fills = [⟨some "ZeroBias", metValsP denPass ev.evts⟩] ∧
       r.jetpt_den.fills = [⟨some "ZeroBias", jetptValsP denPass ev.evts⟩]) ∧
      ((∀ rec ∈ r.ht_num.fills, ∃ q : Event → Bool,
          rec.values = htValsP (fun e => denPass e && q e) ev.evts) ∧
       (∀ rec ∈ r.met_num.fills, ∃ q : Event → Bool,
          rec.values = metValsP (fun e => denPass e && q e) ev.evts) ∧
       (∀ rec ∈ r.jetpt_num.fills, ∃ q : Event → Bool,
          rec.values = jetptValsP (fun e => denPass e && q e) ev.evts)) ∧
      ((∀ t b, binCount r.ht_num t b ≤ binCount r.ht_den "ZeroBias" b) ∧
       (∀ t b, binCount r.met_num t b ≤ binCount r.met_den "ZeroBias" b) ∧
       (∀ t b, binCount r.jetpt_num t b ≤ binCount r.jetpt_den "ZeroBias" b)) := by
  obtain ⟨r, hok, h1, h2, h3, h4, h5, h6⟩ := process_parts L1s ev hmem
  have hdisj1 : ∀ x ∈ ([("AXO_Nominal_HTT360er", axoOrHtt)] :
      List (String × (Event → Bool))).map Prod.fst, x ∉ L1s := by
    intro x hx
    simp only [List.map_cons, List.map_nil, List.mem_singleton] at hx
    rw [hx]
    exact hhtt
  have hdisj2 : ∀ x ∈ ([("AXO_Nominal_HTT360er", axoOrHtt),
      ("AXO_Nominal_ETMHF70", axoOrEtm)] :
      List (String × (Event → Bool))).map Prod.fst, x ∉ L1s := by
    intro x hx
    simp only [List.map_cons, List.map_nil, List.mem_cons,
      List.mem_singleton, List.not_mem_nil, or_false] at hx
    rcases hx with hx | hx
    · rw [hx]
      exact hhtt
    · rw [hx]
      exact hetm
  refine ⟨r, hok, ⟨h1, h2, h3⟩, ⟨?_, ?_, ?_⟩, ?_, ?_, ?_⟩
  · intro rec hr
    rw [h4] at hr
    rcases List.mem_append.mp hr with hr | hr
    · obtain ⟨s, _, hs⟩ := List.mem_map.mp hr
      exact ⟨fun e => e.L1 s, by rw [← hs]⟩
    · have := List.mem_singleton.mp hr
      exact ⟨axoOrHtt, by rw [this]⟩
  · intro rec hr
    rw [h5] at hr
    rcases List.mem_append.mp hr with hr | hr
    · obtain ⟨s, _, hs⟩ := List.mem_map.mp hr
      exact ⟨fun e => e.L1 s, by rw [← hs]⟩
    · rcases List.mem_cons.mp hr with he | hr
      · exact ⟨axoOrHtt, by rw [he]⟩
      · have := List.mem_singleton.mp hr
        exact ⟨axoOrEtm, by rw [this]⟩
  · intro rec hr
    rw [h6] at hr
    rcases List.mem_append.mp hr with hr | hr
    · obtain ⟨s, _, hs⟩ := List.mem_map.mp hr
      exact ⟨fun e => e.L1 s, by rw [← hs]⟩
    · have := List.mem_singleton.mp hr
      exact ⟨axoOrHtt, by rw [this]⟩
  · intro t b
    rw [binCount_fills r.ht_num _ h4, binCount_fills r.ht_den _ h1]
    have hflat : ∀ (p : Event → Bool), htValsP p ev.evts
        = (ev.evts.filter p).flatMap fun e => [some (htOf e)] := by
      intro p
      exact map_eq_flatMap _ _
    simp only [hflat]
    have hx := binCount_two_parts_le ev.evts (fun e => [some (htOf e)]) L1s
      [("AXO_Nominal_HTT360er", axoOrHtt)] hnd (by simp) hdisj1 t b
    simpa using hx
  · intro t b
    rw [binCount_fills r.met_num _ h5, binCount_fills r.met_den _ h2]
    have hflat : ∀ (p : Event → Bool), metValsP p ev.evts
        = (ev.evts.filter p).flatMap fun e => [some e.ScoutingMET] := by
      intro p
      exact map_eq_flatMap _ _
    simp only [hflat]
    have hx := binCount_two_parts_le ev.evts (fun e => [some e.ScoutingMET]) L1s
      [("AXO_Nominal_HTT360er", axoOrHtt), ("AXO_Nominal_ETMHF70", axoOrEtm)]
      hnd (by decide) hdisj2 t b
    simpa using hx
  · intro t b
    rw [binCount_fills r.jetpt_num _ h6, binCount_fills r.jetpt_den _ h3]
    have hflat : ∀ (p : Event → Bool), jetptValsP p ev.evts
        = (ev.evts.filter p).flatMap
            fun e => (paddedJets e).map fun j => j.map Jet.pt := by
      intro p
      rfl
    simp only [hflat]
    have hx := binCount_two_parts_le ev.evts
      (fun e => (paddedJets e).map fun j => j.map Jet.pt) L1s
      [("AXO_Nominal_HTT360er", axoOrHtt)] hnd (by simp) hdisj1 t b
    simpa using hx

/-- Witness for C1 at a concrete seed list and event batch. -/
theorem C1_eff_num_within_den_witness :
    ∃ r : EffResult, process ["AXO_Nominal"] evWitEff = .ok r ∧
      (r.ht_den.fills = [⟨some "ZeroBias", htValsP denPass evWitEff.evts⟩] ∧
       r.met_den.fills = [⟨some "ZeroBias", metValsP denPass evWitEff.evts⟩] ∧
       r.jetpt_den.fills = [⟨some "ZeroBias", jetptValsP denPass evWitEff.evts⟩]) ∧
      ((∀ rec ∈ r.ht_num.fills, ∃ q : Event → Bool,
          rec.values = htValsP (fun e => denPass e && q e) evWitEff.evts) ∧
       (∀ rec ∈ r.met_num.fills, ∃ q : Event → Bool,
          rec.values = metValsP (fun e => denPass e && q e) evWitEff.evts) ∧
       (∀ rec ∈ r.jetpt_num.fills, ∃ q : Event → Bool,
          rec.values = jetptValsP (fun e => denPass e && q e) evWitEff.evts)) ∧
      ((∀ t b, binCount r.ht_num t b ≤ binCount r.ht_den "ZeroBias" b) ∧
       (∀ t b, binCount r.met_num t b ≤ binCount r.met_den "ZeroBias" b) ∧
       (∀ t b, binCount r.jetpt_num t b ≤ binCount r.jetpt_den "ZeroBias" b)) :=
  C1_eff_num_within_den ["AXO_Nominal"] evWitEff
    (by decide) (by decide) (by decide) (by decide)

/-- C9: the denominator histograms each contain only the ZeroBias trigger
category, while the shared numerator histograms accumulate one category per
L1 seed plus the combined AXO_Nominal_HTT360er (and, for met,
AXO_Nominal_ETMHF70) categories, and never the ZeroBias category. -/
theorem C9_eff_den_num_categories (L1s : List String) (ev : Events)
    (hmem : ∀ s ∈ L1s, s ∈ ev.l1fields) (hzb : "ZeroBias" ∉ L1s) :
    ∃ r : EffResult, process L1s ev = .ok r ∧
      (r.ht_den.fills.map EffFillRec.category = [some "ZeroBias"] ∧
       r.met_den.fills.map EffFillRec.category = [some "ZeroBias"] ∧
       r.jetpt_den.fills.map EffFillRec.category = [some "ZeroBias"]) ∧
      (r.ht_num.fills.map EffFillRec.category
         = L1s.map some ++ [some "AXO_Nominal_HTT360er"] ∧
       r.met_num.fills.map EffFillRec.category
         = L1s.map some
           ++ [some "AXO_Nominal_HTT360er", some "AXO_Nominal_ETMHF70"] ∧
       r.jetpt_num.fills.map EffFillRec.category
         = L1s.map some ++ [some "AXO_Nominal_HTT360er"]) ∧
      (some "ZeroBias" ∉ r.ht_num.fills.map EffFillRec.category ∧
       some "ZeroBias" ∉ r.met_num.fills.map EffFillRec.category ∧
       some "ZeroBias" ∉ r.jetpt_num.fills.map EffFillRec.category) := by
  obtain ⟨r, hok, h1, h2, h3, h4, h5, h6⟩ := process_parts L1s ev hmem
  have hc4 : r.ht_num.fills.map EffFillRec.category
      = L1s.map some ++ [some "AXO_Nominal_HTT360er"] := by
    rw [h4, List.map_append, List.map_map]
    rfl
  have hc5 : r.met_num.fills.map EffFillRec.category
      = L1s.map some
        ++ [some "AXO_Nominal_HTT360er", some "AXO_Nominal_ETMHF70"] := by
    rw [h5, List.map_append, List.map_map]
    rfl
  have hc6 : r.jetpt_num.fills.map EffFillRec.category
      = L1s.map some ++ [some "AXO_Nominal_HTT360er"] := by
    rw [h6, List.map_append, List.map_map]
    rfl
  have hnotmem : ∀ (tail : List (Option String)),
      (∀ x ∈ tail, x ≠ some "ZeroBias") →
      some "ZeroBias" ∉ L1s.map some ++ tail := by
    intro tail htail hc
    rcases List.mem_append.mp hc with hc | hc
    · obtain ⟨s, hs, he⟩ := List.mem_map.mp hc
      rw [Option.some.injEq] at he
      rw [he] at hs
      exact hzb hs
    · exact htail _ hc rfl
  refine ⟨r, hok, ⟨by rw [h1]; rfl, by rw [h2]; rfl, by rw [h3]; rfl⟩,
    ⟨hc4, hc5, hc6⟩, ?_, ?_, ?_⟩
  · rw [hc4]
    exact hnotmem _ (by decide)
  · rw [hc5]
    exact hnotmem _ (by decide)
  · rw [hc6]
    exact hnotmem _ (by decide)

/-- Witness for C9 at a concrete seed list and event batch. -/
theorem C9_eff_den_num_categories_witness :
    ∃ r : EffResult, process ["AXO_Nominal"] evWitEff = .ok r ∧
      (r.ht_den.fills.map EffFillRec.category = [some "ZeroBias"] ∧
       r.met_den.fills.map EffFillRec.category = [some "ZeroBias"] ∧
       r.jetpt_den.fills.map EffFillRec.category = [some "ZeroBias"]) ∧
      (r.ht_num.fills.map EffFillRec.category
         = ["AXO_Nominal"].map some ++ [some "AXO_Nominal_HTT360er"] ∧
       r.met_num.fills.map EffFillRec.category
         = ["AXO_Nominal"].map some
           ++ [some "AXO_Nominal_HTT360er", some "AXO_Nominal_ETMHF70"] ∧
       r.jetpt_num.fills.map EffFillRec.category
         = ["AXO_Nominal"].map some ++ [some "AXO_Nominal_HTT360er"]) ∧
      (some "ZeroBias" ∉ r.ht_num.fills.map EffFillRec.category ∧
       some "ZeroBias" ∉ r.met_num.fills.map EffFillRec.category ∧
       some "ZeroBias" ∉ r.jetpt_num.fills.map EffFillRec.category) :=
  C9_eff_den_num_categories ["AXO_Nominal"] evWitEff (by decide) (by decide)

end EffP

theorem nodup_filter_beq (l : List String) (t : String) (hnd : l.Nodup) :
    l.filter (fun s => s == t) = if t ∈ l then [t] else [] := by
  induction l with
  | nil => simp
  | cons a rest ih =>
      rw [List.nodup_cons] at hnd
      rw [List.filter_cons]
      by_cases hat : a = t
      · subst hat
        have hnt : a ∉ rest := hnd.1
        rw [if_pos (by simp), ih hnd.2, if_neg hnt]
        simp
      · have hbeq : (a == t) = false := by
          simp [hat]
        rw [hbeq]
        simp only [Bool.false_eq_true, if_false]
        rw [ih hnd.2]
        have hiff : (t ∈ a :: rest) ↔ t ∈ rest := by
          constructor
          · intro h
            rcases List.mem_cons.mp h with h | h
            · exact absurd h.symm hat
            · exact h
          · exact fun h => List.mem_cons_of_mem a h
        by_cases hm : t ∈ rest
        · rw [if_pos hm, if_pos (hiff.mpr hm)]
        · rw [if_neg hm, if_neg (fun hc => hm (hiff.mp hc))]

namespace PUtil

theorem add_selection_snd (name : String) (sel : List Bool)
    (selection : List (String × List Bool)) (cutflow : List (String × ℕ)) :
    (add_selection name sel selection cutflow).2
      = aset cutflow name
          (countTrue (selAll ((selection ++ [(name, sel)]).map Prod.snd))) := rfl

theorem zipAnd_getD (a : List Bool) :
    ∀ (b : List Bool), a.length = b.length →
    ∀ j, (zipAnd a b).getD j false = (a.getD j false && b.getD j false) := by
  induction a with
  | nil =>
      intro b hb j
      cases b with
      | nil => simp [zipAnd]
      | cons y ys => exact absurd hb (by simp)
  | cons x xs ih =>
      intro b hb j
      cases b with
      | nil => exact absurd hb (by simp)
      | cons y ys =>
          have hlen : xs.length = ys.length := by
            simpa using hb
          have hz : zipAnd (x :: xs) (y :: ys) = (x && y) :: zipAnd xs ys := rfl
          rw [hz]
          cases j with
          | zero => simp
          | succ j =>
              simp only [List.getD_cons_succ]
              exact ih ys hlen j

theorem selAll_length (n : ℕ) :
    ∀ (masks : List (List Bool)), masks ≠ [] → (∀ m ∈ masks, m.length = n) →
    (selAll masks).length = n := by
  intro masks
  induction masks with
  | nil =>
      intro h
      exact absurd rfl h
  | cons m ms ih =>
      intro _ hlen
      cases ms with
      | nil => exact hlen m (by simp)
      | cons m2 rest =>
          have h1 : selAll (m :: m2 :: rest) = zipAnd m (selAll (m2 :: rest)) := rfl
          rw [h1]
          have h2 : (selAll (m2 :: rest)).length = n :=
            ih (by simp) fun x hx => hlen x (List.mem_cons_of_mem _ hx)
          have h3 : (zipAnd m (selAll (m2 :: rest))).length
              = min m.length (selAll (m2 :: rest)).length := by
            simp [zipAnd]
          rw [h3, h2, hlen m (by simp)]
          simp

theorem selAll_getD (n : ℕ) :
    ∀ (masks : List (List Bool)), masks ≠ [] → (∀ m ∈ masks, m.length = n) →
    ∀ j, (selAll masks).getD j false = masks.all fun m => m.getD j false := by
  intro masks
  induction masks with
  | nil =>
      intro h
      exact absurd rfl h
  | cons m ms ih =>
      intro _ hlen j
      cases ms with
      | nil =>
          show m.getD j false
            = (m.getD j false
              && List.all ([] : List (List Bool)) fun x => x.getD j false)
          simp
      | cons m2 rest =>
          have h1 : selAll (m :: m2 :: rest) = zipAnd m (selAll (m2 :: rest)) := rfl
          rw [h1]
          have hlen2 : ∀ x ∈ m2 :: rest, x.length = n :=
            fun x hx => hlen x (List.mem_cons_of_mem _ hx)
          have hl : m.length = (selAll (m2 :: rest)).length := by
            rw [hlen m (by simp), selAll_length n (m2 :: rest) (by simp) hlen2]
          rw [zipAnd_getD m (selAll (m2 :: rest)) hl j]
          rw [ih (by simp) hlen2 j]
          simp [List.all_cons]

theorem countTrue_eq (m : List Bool) :
    countTrue m = (List.range m.length).countP fun j => m.getD j false := by
  induction m with
  | nil => rfl
  | cons a rest ih =>
      have h1 : countTrue (a :: rest) = countTrue rest + if a = true then 1 else 0 := by
        simp [countTrue, List.count_cons]
      rw [h1, ih]
      rw [List.length_cons, List.range_succ_eq_map]
      rw [List.countP_cons, List.countP_map]
      have h2 : ((fun j => (a :: rest).getD j false) ∘ Nat.succ)
          = fun j => rest.getD j false := by
        funext j
        exact List.getD_cons_succ
      rw [h2]
      simp

theorem countTrue_selAll (n : ℕ) (masks : List (List Bool)) (hne : masks ≠ [])
    (hlen : ∀ m ∈ masks, m.length = n) :
    countTrue (selAll masks) = passCount n masks := by
  rw [countTrue_eq, selAll_length n masks hne hlen]
  unfold passCount
  have hfun : (fun j => (selAll masks).getD j false)
      = fun j => masks.all fun m => m.getD j false := by
    funext j
    exact selAll_getD n masks hne hlen j
  rw [hfun]

theorem passCount_anti (n : ℕ) (m1 m2 : List (List Bool))
    (hsub : ∀ m ∈ m1, m ∈ m2) :
    passCount n m2 ≤ passCount n m1 := by
  unfold passCount
  apply List.countP_mono_left
  intro j _ hj
  rw [List.all_eq_true] at hj ⊢
  intro m hm
  exact hj m (hsub m hm)

theorem runSel_fst (steps : List (String × List Bool)) :
    ∀ (st : List (String × List Bool) × List (String × ℕ)),
    (steps.foldl (fun st p => add_selection p.1 p.2 st.1 st.2) st).1
      = st.1 ++ steps := by
  induction steps with
  | nil =>
      intro st
      simp
  | cons p rest ih =>
      intro st
      rw [List.foldl_cons, ih]
      show (st.1 ++ [(p.1, p.2)]) ++ rest = st.1 ++ p :: rest
      simp

theorem runSelections_cutflow (pre : List (String × List Bool))
    (q : String × List Bool) :
    ∀ (post : List (String × List Bool)),
    ((pre ++ q :: post).map Prod.fst).Nodup →
    alookup (runSelections (pre ++ q :: post)).2 q.1
      = some (countTrue (selAll ((pre ++ [q]).map Prod.snd))) := by
  intro post
  induction post using List.reverseRecOn with
  | nil =>
      intro _
      unfold runSelections
      rw [List.foldl_append]
      simp only [List.foldl_cons, List.foldl_nil]
      rw [add_selection_snd, alookup_aset_self]
      rw [runSel_fst pre ([], [])]
      show some (countTrue (selAll (([] ++ pre ++ [(q.1, q.2)]).map Prod.snd))) = _
      simp
  | append_singleton post2 r ih =>
      intro hnd
      have hre : pre ++ q :: (post2 ++ [r]) = (pre ++ q :: post2) ++ [r] := by
        simp
      rw [hre] at hnd ⊢
      unfold runSelections
      rw [List.foldl_append]
      simp only [List.foldl_cons, List.foldl_nil]
      rw [add_selection_snd]
      rw [List.map_append] at hnd
      have hq : q.1 ∈ (pre ++ q :: post2).map Prod.fst := by simp
      have hne : q.1 ≠ r.1 :=
        fun heq => (List.nodup_append.mp hnd).2.2 hq (by simp [heq])
      rw [alookup_aset_ne _ _ _ _ hne]
      exact ih (List.nodup_append.mp hnd).1

/-- C10: for every sequence of `add_selection` calls on an initially empty
`PackedSelection` and cutflow dictionary (all masks sharing the event count
`n`, selection names distinct), the cutflow value recorded for each call
equals the number of events passing the conjunction of every selection
added up to and including that call, and these counts are non-increasing
in insertion order. -/
theorem C10_add_selection_cutflow (n : ℕ) (steps : List (String × List Bool))
    (hlen : ∀ p ∈ steps, p.2.length = n)
    (hnd : (steps.map Prod.fst).Nodup) :
    (∀ pre x post, steps = pre ++ x :: post →
      alookup (runSelections steps).2 x.1
        = some (passCount n ((pre ++ [x]).map Prod.snd))) ∧
    (∀ pre x mid y post, steps = pre ++ x :: mid ++ y :: post →
      passCount n (((pre ++ x :: mid) ++ [y]).map Prod.snd)
        ≤ passCount n ((pre ++ [x]).map Prod.snd)) := by
  constructor
  · intro pre x post hsplit
    subst hsplit
    rw [runSelections_cutflow pre x post hnd]
    have hlen2 : ∀ m ∈ (pre ++ [x]).map Prod.snd, m.length = n := by
      intro m hm
      obtain ⟨p, hp, he⟩ := List.mem_map.mp hm
      rw [← he]
      refine hlen p ?_
      simp only [List.mem_append, List.mem_cons, List.mem_singleton,
        List.not_mem_nil, or_false] at hp ⊢
      tauto
    rw [countTrue_selAll n _ (by simp) hlen2]
  · intro pre x mid y post hsplit
    apply passCount_anti
    intro m hm
    obtain ⟨p, hp, he⟩ := List.mem_map.mp hm
    refine List.mem_map.mpr ⟨p, ?_, he⟩
    simp only [List.mem_append, List.mem_cons, List.mem_singleton,
      List.not_mem_nil, or_false] at hp ⊢
    tauto

/-- Witness for C10 on a concrete two-call sequence over three events. -/
theorem C10_add_selection_cutflow_witness :
    (alookup (runSelections [("jet", [true, true, false]),
        ("axo", [true, false, false])]).2 "jet"
      = some (passCount 3 [[true, true, false]])) ∧
    (alookup (runSelections [("jet", [true, true, false]),
        ("axo", [true, false, false])]).2 "axo"
      = some (passCount 3 [[true, true, false], [true, false, false]])) ∧
    passCount 3 [[true, true, false], [true, false, false]]
      ≤ passCount 3 [[true, true, false]] ∧
    passCount 3 [[true, true, false]] = 2 ∧
    passCount 3 [[true, true, false], [true, false, false]] = 1 :=
  ⟨(C10_add_selection_cutflow 3 [("jet", [true, true, false]),
        ("axo", [true, false, false])] (by decide) (by decide)).1
      [] ("jet", [true, true, false]) [("axo", [true, false, false])] rfl,
   (C10_add_selection_cutflow 3 [("jet", [true, true, false]),
        ("axo", [true, false, false])] (by decide) (by decide)).1
      [("jet", [true, true, false])] ("axo", [true, false, false]) [] rfl,
   (C10_add_selection_cutflow 3 [("jet", [true, true, false]),
        ("axo", [true, false, false])] (by decide) (by decide)).2
      [] ("jet", [true, true, false]) [] ("axo", [true, false, false]) [] rfl,
   by decide, by decide⟩

end PUtil

end AdAnalysis
